import Mathlib

/- Verification development for the Juma Trek backend (`main.py`, `schemas.py`):
   a FastAPI + MongoDB CRUD service.  The embedding is shallow:
   * a BSON document is an association list of field name to `Value`;
   * a MongoDB collection is a list of documents;
   * process-environment values are `Option String` parameters;
   * every route handler is a pure function returning `Except PyErr α`,
     where `PyErr` mirrors `fastapi.HTTPException`;
   * the nondeterministic inputs of the code (the generated ObjectId, the
     fresh salt from `secrets.token_hex`, the current time, the outcome of
     the SMTP transport) are explicit parameters. -/

/-- HTTP error raised by a handler, mirroring `fastapi.HTTPException`. -/
structure PyErr where
  status : Nat
  detail : String
deriving DecidableEq

/-- BSON-representable values as used by this backend: strings, ints, floats
(carried opaquely — no route ever computes on one — modelled as rationals),
booleans, lists of strings, `datetime` instants (modelled as abstract ticks),
`date` values, ObjectIds (their 12-byte value, as a natural number below
`16 ^ 24`) and Python `None`. -/
inductive Value where
  | vStr (s : String)
  | vInt (n : Int)
  | vFloat (q : Rat)
  | vBool (b : Bool)
  | vStrList (l : List String)
  | vDateTime (tick : Nat)
  | vDate (tick : Nat)
  | vOid (n : Nat)
  | vNull
deriving DecidableEq

/-- A stored document: an association list of field name to value (Python
dict / BSON document; every document this backend builds has unique keys). -/
abbrev Doc := List (String × Value)

/-- Python `dict.get(k)` / Mongo field access — first binding wins. -/
def Doc.find (d : Doc) (k : String) : Option Value :=
  match d with
  | [] => none
  | (k', v) :: rest => if k' = k then some v else Doc.find rest k

/-- Removal of a key (`doc.pop("_id")` drops the binding). -/
def Doc.erase (d : Doc) (k : String) : Doc :=
  match d with
  | [] => []
  | (k', v') :: rest => if k' = k then Doc.erase rest k else (k', v') :: Doc.erase rest k

/-- Python `d[k] = v`, also a single `$set` field in MongoDB: replaces the
first binding of `k` in place, otherwise appends the new binding. -/
def Doc.setKey (d : Doc) (k : String) (v : Value) : Doc :=
  match d with
  | [] => [(k, v)]
  | (k', v') :: rest => if k' = k then (k, v) :: rest else (k', v') :: Doc.setKey rest k v

/-- Setting several fields in order (Mongo `$set` with a document). -/
def Doc.setMany (d : Doc) (kvs : List (String × Value)) : Doc :=
  kvs.foldl (fun acc kv => Doc.setKey acc kv.1 kv.2) d

theorem Doc.find_setKey_self (d : Doc) (k : String) (v : Value) :
    Doc.find (Doc.setKey d k v) k = some v := by
  induction d with
  | nil => simp [Doc.setKey, Doc.find]
  | cons kv rest ih =>
    obtain ⟨k', v'⟩ := kv
    by_cases h : k' = k
    · simp [Doc.setKey, h, Doc.find]
    · simp [Doc.setKey, h, Doc.find, ih]

theorem Doc.find_setKey_ne (d : Doc) (k k₂ : String) (v : Value) (h : k₂ ≠ k) :
    Doc.find (Doc.setKey d k v) k₂ = Doc.find d k₂ := by
  have h' : ¬ k = k₂ := fun he => h he.symm
  induction d with
  | nil => simp [Doc.setKey, Doc.find, h']
  | cons kv rest ih =>
    obtain ⟨k', v'⟩ := kv
    by_cases hk : k' = k
    · subst hk
      simp [Doc.setKey, Doc.find, h']
    · simp [Doc.setKey, hk, Doc.find, ih]

theorem Doc.find_setMany_not_mem (kvs : List (String × Value)) :
    ∀ (d : Doc) (k : String), k ∉ kvs.map Prod.fst →
      Doc.find (Doc.setMany d kvs) k = Doc.find d k := by
  induction kvs with
  | nil => intro d k _; rfl
  | cons kv rest ih =>
    intro d k hk
    simp only [List.map_cons, List.mem_cons] at hk
    push_neg at hk
    have step : Doc.setMany d (kv :: rest) = Doc.setMany (Doc.setKey d kv.1 kv.2) rest := rfl
    rw [step, ih _ k hk.2, Doc.find_setKey_ne _ _ _ _ hk.1]

theorem Doc.find_setMany_mem (kvs : List (String × Value)) :
    ∀ (d : Doc) (k : String) (v : Value), (kvs.map Prod.fst).Nodup →
      (k, v) ∈ kvs → Doc.find (Doc.setMany d kvs) k = some v := by
  induction kvs with
  | nil => intro d k v _ hm; cases hm
  | cons kv rest ih =>
    intro d k v hnd hm
    simp only [List.map_cons, List.nodup_cons] at hnd
    have step : Doc.setMany d (kv :: rest) = Doc.setMany (Doc.setKey d kv.1 kv.2) rest := rfl
    rcases List.mem_cons.mp hm with h | h
    · subst h
      rw [step, Doc.find_setMany_not_mem rest _ _ hnd.1, Doc.find_setKey_self]
    · exact step ▸ ih _ k v hnd.2 h

/-- Replacing each stored value (the `isoformat` conversion loop applies this
to every binding in place). -/
def Doc.mapValues (f : Value → Value) (d : Doc) : Doc :=
  d.map (fun kv => (kv.1, f kv.2))

theorem Doc.find_mapValues (f : Value → Value) (d : Doc) (k : String) :
    Doc.find (Doc.mapValues f d) k = (Doc.find d k).map f := by
  induction d with
  | nil => rfl
  | cons kv rest ih =>
    obtain ⟨k', v'⟩ := kv
    by_cases h : k' = k
    · simp [Doc.mapValues, Doc.find, h]
    · simpa [Doc.mapValues, Doc.find, h] using ih

theorem Doc.find_erase_ne (d : Doc) (k k₂ : String) (h : k₂ ≠ k) :
    Doc.find (Doc.erase d k) k₂ = Doc.find d k₂ := by
  have h' : ¬ k = k₂ := fun he => h he.symm
  induction d with
  | nil => rfl
  | cons kv rest ih =>
    obtain ⟨k', v'⟩ := kv
    by_cases hk : k' = k
    · subst hk
      simp [Doc.erase, Doc.find, h', ih]
    · simp [Doc.erase, hk, Doc.find, ih]

/-- Ticks stand for `datetime` instants; `isoformat()` is modelled as an
injective rendering of the tick (no route inspects the shape of the string). -/
def isoOfDateTime (tick : Nat) : String :=
  toString tick

-- ---------------------------------------------------------------------------
-- ObjectId strings (`bson.ObjectId` and `str(ObjectId)`)
-- ---------------------------------------------------------------------------

/-- Lowercase hex digit characters `0123456789abcdef` (Python `hex()` casing). -/
def hexDigitChar (m : Nat) : Char :=
  if m < 10 then Char.ofNat (48 + m) else Char.ofNat (87 + m)

/-- Fixed-width hexadecimal digits of `n`, least-significant digit first. -/
def natToHexRev (w n : Nat) : List Char :=
  match w with
  | 0 => []
  | w' + 1 => hexDigitChar (n % 16) :: natToHexRev w' (n / 16)

/-- `str(ObjectId(...))`: the 24-character lowercase hexadecimal rendering of
the 12-byte id value. -/
def oidHex (n : Nat) : String :=
  ⟨(natToHexRev 24 n).reverse⟩

/-- Value of a single hexadecimal digit character, either case. -/
def hexCharVal (c : Char) : Option Nat :=
  if '0' ≤ c ∧ c ≤ '9' then some (c.toNat - 48)
  else if 'a' ≤ c ∧ c ≤ 'f' then some (c.toNat - 87)
  else if 'A' ≤ c ∧ c ≤ 'F' then some (c.toNat - 55)
  else none

def hexCharsToNatAux : List Char → Nat → Option Nat
  | [], acc => some acc
  | c :: cs, acc =>
    match hexCharVal c with
    | some v => hexCharsToNatAux cs (acc * 16 + v)
    | none => none

/-- Modelled from the `bson` library (an external dependency, not part of this
repository): `ObjectId(s)` for a string argument accepts exactly the
24-character hexadecimal strings — of either case — and yields the 12-byte
value (`len(oid) == 24` followed by `bytes.fromhex`). -/
def parseObjectId (s : String) : Option Nat :=
  if s.length = 24 then hexCharsToNatAux s.data 0 else none

/-- `to_object_id` from `main.py`: a string that `ObjectId` rejects becomes
HTTP 400 `"Invalid id"`. -/
def to_object_id (id_str : String) : Except PyErr Nat :=
  match parseObjectId id_str with
  | some n => .ok n
  | none => .error ⟨400, "Invalid id"⟩

/-- The identifier wire format in the words of the spec: a 24-character
*lowercase* hexadecimal string. -/
def specLowercaseHex24 (s : String) : Bool :=
  s.length == 24 && s.data.all (fun c => c.isDigit || ('a' ≤ c && c ≤ 'f'))

theorem length_natToHexRev (w : Nat) : ∀ n, (natToHexRev w n).length = w := by
  induction w with
  | zero => intro n; rfl
  | succ w ih => intro n; simp [natToHexRev, ih]

theorem hexCharVal_hexDigitChar : ∀ m, m < 16 → hexCharVal (hexDigitChar m) = some m := by
  decide

theorem mod_mul_pow16 (n w : Nat) :
    n % (16 * 16 ^ w) = 16 * (n / 16 % 16 ^ w) + n % 16 := by
  have hpow : 0 < (16 : Nat) ^ w := Nat.pos_pow_of_pos _ (by norm_num)
  have hqm : n / 16 % 16 ^ w < 16 ^ w := Nat.mod_lt _ hpow
  have hr : n % 16 < 16 := Nat.mod_lt _ (by norm_num)
  have decomp : n = (16 * (n / 16 % 16 ^ w) + n % 16) + (16 * 16 ^ w) * (n / 16 / 16 ^ w) := by
    have h1 := Nat.div_add_mod (n / 16) (16 ^ w)
    calc n = 16 * (n / 16) + n % 16 := (Nat.div_add_mod n 16).symm
    _ = 16 * (16 ^ w * (n / 16 / 16 ^ w) + n / 16 % 16 ^ w) + n % 16 := by rw [h1]
    _ = (16 * (n / 16 % 16 ^ w) + n % 16) + (16 * 16 ^ w) * (n / 16 / 16 ^ w) := by ring
  conv_lhs => rw [decomp]
  rw [Nat.add_mul_mod_self_left]
  exact Nat.mod_eq_of_lt (by omega)

theorem hexChars_roundtrip (w : Nat) : ∀ (n acc : Nat) (rest : List Char),
    hexCharsToNatAux ((natToHexRev w n).reverse ++ rest) acc
      = hexCharsToNatAux rest (acc * 16 ^ w + n % 16 ^ w) := by
  induction w with
  | zero =>
    intro n acc rest
    simp [natToHexRev, hexCharsToNatAux, Nat.mod_one]
  | succ w ih =>
    intro n acc rest
    have e1 : (natToHexRev (w + 1) n).reverse
        = (natToHexRev w (n / 16)).reverse ++ [hexDigitChar (n % 16)] := by
      simp [natToHexRev]
    rw [e1, List.append_assoc, ih]
    have hd : hexCharVal (hexDigitChar (n % 16)) = some (n % 16) :=
      hexCharVal_hexDigitChar _ (Nat.mod_lt _ (by norm_num))
    simp only [List.cons_append, List.nil_append, hexCharsToNatAux, hd]
    congr 1
    have : (16 : Nat) ^ (w + 1) = 16 * 16 ^ w := by ring
    rw [this, mod_mul_pow16]
    ring

theorem parseObjectId_oidHex (n : Nat) (h : n < 16 ^ 24) :
    parseObjectId (oidHex n) = some n := by
  have hlen : (oidHex n).length = 24 := by
    show ((natToHexRev 24 n).reverse).length = 24
    simp [length_natToHexRev]
  unfold parseObjectId
  rw [hlen]
  simp only [if_pos rfl]
  show hexCharsToNatAux ((natToHexRev 24 n).reverse) 0 = some n
  have := hexChars_roundtrip 24 n 0 []
  rw [List.append_nil] at this
  rw [this]
  show some (0 * 16 ^ 24 + n % 16 ^ 24) = some n
  rw [Nat.zero_mul, Nat.zero_add, Nat.mod_eq_of_lt h]

theorem to_object_id_oidHex (n : Nat) (h : n < 16 ^ 24) :
    to_object_id (oidHex n) = .ok n := by
  simp [to_object_id, parseObjectId_oidHex n h]

theorem hexCharsToNatAux_isSome (cs : List Char) :
    ∀ acc, (hexCharsToNatAux cs acc).isSome = cs.all (fun c => (hexCharVal c).isSome) := by
  induction cs with
  | nil => intro acc; rfl
  | cons c cs ih =>
    intro acc
    cases h : hexCharVal c with
    | some v => simp [hexCharsToNatAux, h, ih]
    | none => simp [hexCharsToNatAux, h]

/-- Well-formedness of an id string as `ObjectId` accepts it. -/
theorem to_object_id_ok_iff (s : String) :
    (∃ n, to_object_id s = .ok n)
      ↔ (s.length = 24 ∧ s.data.all (fun c => (hexCharVal c).isSome) = true) := by
  unfold to_object_id parseObjectId
  by_cases hl : s.length = 24
  · rw [if_pos hl]
    constructor
    · rintro ⟨n, hn⟩
      refine ⟨hl, ?_⟩
      rw [← hexCharsToNatAux_isSome s.data 0]
      cases h : hexCharsToNatAux s.data 0 with
      | some v => rfl
      | none => rw [h] at hn; cases hn
    · rintro ⟨-, hall⟩
      have := (hexCharsToNatAux_isSome s.data 0).trans hall
      cases h : hexCharsToNatAux s.data 0 with
      | some v => exact ⟨v, by simp [h]⟩
      | none => rw [h] at this; cases this
  · rw [if_neg hl]
    constructor
    · rintro ⟨n, hn⟩; cases hn
    · rintro ⟨h24, -⟩; exact absurd h24 hl

-- ---------------------------------------------------------------------------
-- Pydantic schemas (`schemas.py`)
-- ---------------------------------------------------------------------------

/-- Dump of an optional string field (pydantic `model_dump` keeps `None`). -/
def optStr : Option String → Value
  | some s => .vStr s
  | none => .vNull

/-- Dump of an optional int field. -/
def optInt : Option Int → Value
  | some n => .vInt n
  | none => .vNull

/-- Dump of an optional date field (`datetime.date`, not `datetime`). -/
def optDate : Option Nat → Value
  | some t => .vDate t
  | none => .vNull

/-- The `Trek` pydantic model. -/
structure Trek where
  title : String
  slug : Option String
  region : String
  difficulty : String
  duration_days : Int
  price_usd : Rat
  max_altitude_m : Option Int
  highlights : List String
  overview : String
  itinerary : List String
  inclusions : List String
  exclusions : List String
  images : List String
  is_featured : Bool
deriving DecidableEq

/-- The field constraints pydantic enforces on `Trek` before the handler runs
(`ge=1` on `duration_days`, `ge=0` on `price_usd` and `max_altitude_m`). -/
def Trek.validB (t : Trek) : Bool :=
  decide (1 ≤ t.duration_days) && decide (0 ≤ t.price_usd) &&
    (match t.max_altitude_m with
     | some m => decide (0 ≤ m)
     | none => true)

/-- Validity of a `Trek` payload, as a proposition. -/
def Trek.isValid (t : Trek) : Prop :=
  t.validB = true

instance (t : Trek) : Decidable t.isValid :=
  inferInstanceAs (Decidable (_ = true))

/-- `payload.model_dump()` for a `Trek`, in field declaration order. -/
def Trek.model_dump (t : Trek) : Doc :=
  [("title", .vStr t.title),
   ("slug", optStr t.slug),
   ("region", .vStr t.region),
   ("difficulty", .vStr t.difficulty),
   ("duration_days", .vInt t.duration_days),
   ("price_usd", .vFloat t.price_usd),
   ("max_altitude_m", optInt t.max_altitude_m),
   ("highlights", .vStrList t.highlights),
   ("overview", .vStr t.overview),
   ("itinerary", .vStrList t.itinerary),
   ("inclusions", .vStrList t.inclusions),
   ("exclusions", .vStrList t.exclusions),
   ("images", .vStrList t.images),
   ("is_featured", .vBool t.is_featured)]

/-- The field names of a `Trek`, in declaration order. -/
def trekFieldNames : List String :=
  ["title", "slug", "region", "difficulty", "duration_days", "price_usd",
   "max_altitude_m", "highlights", "overview", "itinerary", "inclusions",
   "exclusions", "images", "is_featured"]

/-- The `BlogPost` pydantic model. -/
structure BlogPost where
  title : String
  slug : Option String
  excerpt : Option String
  content : String
  cover_image : Option String
  tags : List String
  published : Bool
  published_on : Option Nat
deriving DecidableEq

/-- `payload.model_dump()` for a `BlogPost`. -/
def BlogPost.model_dump (b : BlogPost) : Doc :=
  [("title", .vStr b.title),
   ("slug", optStr b.slug),
   ("excerpt", optStr b.excerpt),
   ("content", .vStr b.content),
   ("cover_image", optStr b.cover_image),
   ("tags", .vStrList b.tags),
   ("published", .vBool b.published),
   ("published_on", optDate b.published_on)]

/-- The field names of a `BlogPost`, in declaration order. -/
def blogFieldNames : List String :=
  ["title", "slug", "excerpt", "content", "cover_image", "tags", "published",
   "published_on"]

/-- The `Inquiry` pydantic model (`email` is an `EmailStr`; the format check
happens in pydantic before the handler runs and is not re-modelled). -/
structure Inquiry where
  name : String
  email : String
  trek_id : Option String
  subject : Option String
  message : String
  preferred_start_date : Option Nat
  travelers : Option Int
deriving DecidableEq

/-- `payload.model_dump()` for an `Inquiry`. -/
def Inquiry.model_dump (q : Inquiry) : Doc :=
  [("name", .vStr q.name),
   ("email", .vStr q.email),
   ("trek_id", optStr q.trek_id),
   ("subject", optStr q.subject),
   ("message", .vStr q.message),
   ("preferred_start_date", optDate q.preferred_start_date),
   ("travelers", optInt q.travelers)]

/-- The `AdminUser` pydantic model. -/
structure AdminUser where
  email : String
  password_hash : String
  password_salt : String
  full_name : Option String
  role : String
deriving DecidableEq

/-- `model_dump()` for an `AdminUser`. -/
def AdminUser.model_dump (u : AdminUser) : Doc :=
  [("email", .vStr u.email),
   ("password_hash", .vStr u.password_hash),
   ("password_salt", .vStr u.password_salt),
   ("full_name", optStr u.full_name),
   ("role", .vStr u.role)]

-- ---------------------------------------------------------------------------
-- Serialization (`serialize_doc`)
-- ---------------------------------------------------------------------------

/-- Python `str(...)` as the routes apply it (`str(doc.pop("_id"))`,
`str(user.get("_id"))`).  Only `ObjectId` values are ever stringified by the
code; the remaining arms record Python's rendering where it is fixed and an
unused placeholder where no route can reach them. -/
def valueStr : Value → String
  | .vOid n => oidHex n
  | .vStr s => s
  | .vInt n => toString n
  | .vBool b => if b then "True" else "False"
  | .vNull => "None"
  | .vDateTime t => isoOfDateTime t
  | .vDate t => isoOfDateTime t
  | .vFloat _ => "<float repr>"
  | .vStrList _ => "<list repr>"

/-- Python `str(x)` where `x` may be `None` (`str(user.get("_id"))`). -/
def pyStrOpt : Option Value → String
  | none => "None"
  | some v => valueStr v

/-- Conversion applied to every stored value when serializing: `datetime`
instants become their ISO string, everything else is unchanged. -/
def convertValue : Value → Value
  | .vDateTime t => .vStr (isoOfDateTime t)
  | v => v

/-- `serialize_doc` from `main.py`: an empty (falsy) document is returned as
is; otherwise `_id` is popped, re-inserted as the string field `id`, and every
`datetime` value is converted to its ISO string.  Python would raise
`KeyError` on a nonempty document without `_id`; every stored document
carries `_id`, and that unreachable branch is modelled as skipping the pop. -/
def serialize_doc (doc : Doc) : Doc :=
  if doc.isEmpty then doc
  else
    match Doc.find doc "_id" with
    | some v => Doc.mapValues convertValue (Doc.setKey (Doc.erase doc "_id") "id" (.vStr (valueStr v)))
    | none => Doc.mapValues convertValue doc

theorem convertValue_optStr (o : Option String) : convertValue (optStr o) = optStr o := by
  cases o <;> rfl

theorem convertValue_optInt (o : Option Int) : convertValue (optInt o) = optInt o := by
  cases o <;> rfl

theorem convertValue_optDate (o : Option Nat) : convertValue (optDate o) = optDate o := by
  cases o <;> rfl

-- ---------------------------------------------------------------------------
-- Admin gate (`require_admin`)
-- ---------------------------------------------------------------------------

/-- Python truthiness of an optional string (`None` and `""` are falsy). -/
def pyTruthyOptStr : Option String → Bool
  | none => false
  | some s => !(s == "")

/-- `require_admin` from `main.py`: `expected` is `os.getenv("ADMIN_API_KEY")`
and `hdr` the optional `X-Admin-Key` request header.  The Python comparison
`x_admin_key == expected` (an `Optional[str]` against a `str`) is the
`Option String` equality. -/
def require_admin (expected hdr : Option String) : Except PyErr Bool :=
  if pyTruthyOptStr expected && (hdr == expected) then .ok true
  else if !pyTruthyOptStr expected then .ok true
  else .error ⟨401, "Unauthorized"⟩

-- ---------------------------------------------------------------------------
-- Document store gateway (`database.py` is not under `src/`)
-- ---------------------------------------------------------------------------

/-- `get_collection_name` from `main.py`: the model class name, lowercased. -/
def get_collection_name (modelName : String) : String :=
  modelName.toLower

/-- Modelled from the spec: `create_document` lives in `database.py`, which is
not part of the sources; §4.1 gives its contract `insert(collectionName,
record) -> id`.  The record (the payload's field dump) is stored with a fresh
ObjectId `_id` and the id is returned in its string form. -/
def create_document (col : List Doc) (payload : Doc) (newId : Nat) : List Doc × String :=
  (col ++ [("_id", Value.vOid newId) :: payload], oidHex newId)

/-- `find_one({"_id": oid})`: the unique (in the model: first) document whose
`_id` equals the given ObjectId. -/
def findOne (col : List Doc) (oid : Nat) : Option Doc :=
  col.find? (fun d => Doc.find d "_id" == some (Value.vOid oid))

/-- `update_one({"_id": oid}, {"$set": kvs})`: sets the given fields on the
first matching document; returns the new collection and `matched_count`. -/
def applySetFirst (oid : Nat) (kvs : List (String × Value)) : List Doc → List Doc × Nat
  | [] => ([], 0)
  | d :: rest =>
    if Doc.find d "_id" = some (Value.vOid oid) then (Doc.setMany d kvs :: rest, 1)
    else
      let r := applySetFirst oid kvs rest
      (d :: r.1, r.2)

/-- `delete_one({"_id": oid})`: removes the first matching document; returns
the new collection and `deleted_count`. -/
def deleteFirst (oid : Nat) : List Doc → List Doc × Nat
  | [] => ([], 0)
  | d :: rest =>
    if Doc.find d "_id" = some (Value.vOid oid) then (rest, 1)
    else
      let r := deleteFirst oid rest
      (d :: r.1, r.2)

theorem applySetFirst_of_none (oid : Nat) (kvs : List (String × Value)) :
    ∀ col : List Doc, findOne col oid = none → applySetFirst oid kvs col = (col, 0) := by
  intro col
  induction col with
  | nil => intro _; rfl
  | cons d rest ih =>
    intro h
    rw [findOne, List.find?_cons] at h
    by_cases hd : Doc.find d "_id" = some (Value.vOid oid)
    · simp [hd] at h
    · have hd' : (Doc.find d "_id" == some (Value.vOid oid)) = false := by
        simpa using hd
      rw [hd'] at h
      simp only [applySetFirst, if_neg hd]
      rw [ih h]

theorem applySetFirst_of_some (oid : Nat) (kvs : List (String × Value)) :
    ∀ (col : List Doc) (d : Doc), findOne col oid = some d →
      ∃ i, col.get? i = some d ∧
        Doc.find d "_id" = some (Value.vOid oid) ∧
        (∀ j, j < i → ∀ e, col.get? j = some e →
          Doc.find e "_id" ≠ some (Value.vOid oid)) ∧
        applySetFirst oid kvs col = (col.set i (Doc.setMany d kvs), 1) := by
  intro col
  induction col with
  | nil => intro d h; cases h
  | cons d0 rest ih =>
    intro d h
    rw [findOne, List.find?_cons] at h
    by_cases hd : Doc.find d0 "_id" = some (Value.vOid oid)
    · have : (Doc.find d0 "_id" == some (Value.vOid oid)) = true := by simpa using hd
      rw [this] at h
      obtain rfl : d0 = d := by simpa using h
      exact ⟨0, rfl, hd, fun j hj => by omega, by simp [applySetFirst, if_pos hd]⟩
    · have hd' : (Doc.find d0 "_id" == some (Value.vOid oid)) = false := by simpa using hd
      rw [hd'] at h
      obtain ⟨i, hget, hid, hbef, happ⟩ := ih d h
      refine ⟨i + 1, by simpa using hget, hid, ?_, ?_⟩
      · intro j hj e he
        cases j with
        | zero =>
          obtain rfl : d0 = e := by simpa using he
          exact hd
        | succ j' => exact hbef j' (by omega) e (by simpa using he)
      · simp only [applySetFirst, if_neg hd, happ, List.set_cons_succ]

theorem deleteFirst_of_none (oid : Nat) :
    ∀ col : List Doc, findOne col oid = none → deleteFirst oid col = (col, 0) := by
  intro col
  induction col with
  | nil => intro _; rfl
  | cons d rest ih =>
    intro h
    rw [findOne, List.find?_cons] at h
    by_cases hd : Doc.find d "_id" = some (Value.vOid oid)
    · simp [hd] at h
    · have hd' : (Doc.find d "_id" == some (Value.vOid oid)) = false := by simpa using hd
      rw [hd'] at h
      simp only [deleteFirst, if_neg hd]
      rw [ih h]

theorem get?_set_ne {α : Type} (l : List α) :
    ∀ (i j : Nat) (a : α), j ≠ i → (l.set i a).get? j = l.get? j := by
  induction l with
  | nil => intro i j a _; simp
  | cons x xs ih =>
    intro i j a hij
    cases i with
    | zero =>
      cases j with
      | zero => exact absurd rfl hij
      | succ j' => simp
    | succ i' =>
      cases j with
      | zero => simp
      | succ j' => simpa using ih i' j' a (fun he => hij (by rw [he]))

theorem findOne_set_of_mem (col : List Doc) :
    ∀ (i : Nat) (d d' : Doc) (oid : Nat),
      col.get? i = some d →
      (∀ j, j < i → ∀ e, col.get? j = some e → Doc.find e "_id" ≠ some (Value.vOid oid)) →
      Doc.find d' "_id" = some (Value.vOid oid) →
      findOne (col.set i d') oid = some d' := by
  induction col with
  | nil => intro i d d' oid hget _ _; simp at hget
  | cons x xs ih =>
    intro i d d' oid hget hbefore hd'
    cases i with
    | zero =>
      simp only [List.set_cons_zero]
      rw [findOne, List.find?_cons]
      have : (Doc.find d' "_id" == some (Value.vOid oid)) = true := by simpa using hd'
      rw [this]
    | succ i' =>
      simp only [List.set_cons_succ]
      rw [findOne, List.find?_cons]
      have hx : Doc.find x "_id" ≠ some (Value.vOid oid) :=
        hbefore 0 (Nat.succ_pos _) x rfl
      have hx' : (Doc.find x "_id" == some (Value.vOid oid)) = false := by simpa using hx
      rw [hx']
      exact ih i' d d' oid (by simpa using hget)
        (fun j hj e he => hbefore (j + 1) (Nat.succ_lt_succ hj) e (by simpa using he)) hd'

theorem findOne_matched (col : List Doc) (oid : Nat) (d : Doc)
    (h : findOne col oid = some d) : Doc.find d "_id" = some (Value.vOid oid) := by
  have := List.find?_some h
  simpa using this

/-- `find_one` on the first `i` elements fails before the found index. -/
theorem findOne_before (col : List Doc) :
    ∀ (oid : Nat) (d : Doc), findOne col oid = some d →
      ∃ i, col.get? i = some d ∧
        ∀ j, j < i → ∀ e, col.get? j = some e → Doc.find e "_id" ≠ some (Value.vOid oid) := by
  induction col with
  | nil => intro oid d h; cases h
  | cons x xs ih =>
    intro oid d h
    rw [findOne, List.find?_cons] at h
    by_cases hx : Doc.find x "_id" = some (Value.vOid oid)
    · have : (Doc.find x "_id" == some (Value.vOid oid)) = true := by simpa using hx
      rw [this] at h
      obtain rfl : x = d := by simpa using h
      exact ⟨0, rfl, fun j hj => by omega⟩
    · have hx' : (Doc.find x "_id" == some (Value.vOid oid)) = false := by simpa using hx
      rw [hx'] at h
      obtain ⟨i, hget, hbef⟩ := ih oid d h
      refine ⟨i + 1, by simpa using hget, ?_⟩
      intro j hj e he
      cases j with
      | zero =>
        obtain rfl : x = e := by simpa using he
        exact hx
      | succ j' => exact hbef j' (by omega) e (by simpa using he)

-- ---------------------------------------------------------------------------
-- Mongo query filters as built by the list routes
-- ---------------------------------------------------------------------------

/-- Whether `needle` is a prefix of `hay` (character lists). -/
def startsWithSeq : List Char → List Char → Bool
  | [], _ => true
  | _ :: _, [] => false
  | a :: as, b :: bs => a == b && startsWithSeq as bs

/-- Whether `needle` occurs contiguously inside `hay` (character lists). -/
def containsSeq : List Char → List Char → Bool
  | n, [] => n.isEmpty
  | n, c :: rest => startsWithSeq n (c :: rest) || containsSeq n rest

/-- Case-insensitive substring test: an unanchored `$regex` with option `"i"`
whose pattern is a literal (none of the patterns this backend builds from its
query parameters are treated as containing regex metacharacters). -/
def containsCI (hay pat : String) : Bool :=
  containsSeq pat.toLower.data hay.toLower.data

/-- The two `$regex`/`"i"` shapes the routes build: an unanchored substring
pattern, and the anchored `f"^{difficulty}$"` whole-string pattern. -/
inductive StrPat where
  | containsCI (pat : String)
  | equalsCI (pat : String)
deriving DecidableEq

/-- One per-field condition of a filter document. -/
inductive Cond where
  | regex (pat : StrPat)
  | elemMatchRegex (pat : StrPat)
  | range (lo hi : Option Int)
  | eqVal (v : Value)
deriving DecidableEq

/-- A filter document: top-level field conditions plus an optional `$or`
list of single-field conditions (the only shapes `main.py` builds). -/
structure MongoFilter where
  fields : List (String × Cond)
  orGroup : Option (List (String × Cond))
deriving DecidableEq

def strPatMatches (pat : StrPat) (s : String) : Bool :=
  match pat with
  | .containsCI p => containsCI s p
  | .equalsCI p => s.toLower == p.toLower

/-- MongoDB evaluation of one field condition against a document, for the
operator shapes this backend uses: `$regex` applies to string fields only,
`$elemMatch`+`$regex` to string-array fields, `$gte`/`$lte` to the numeric
(integer-valued) field `duration_days`, and a plain value is equality. -/
def condMatches (d : Doc) (k : String) (c : Cond) : Bool :=
  match c, Doc.find d k with
  | .regex p, some (.vStr s) => strPatMatches p s
  | .regex _, _ => false
  | .elemMatchRegex p, some (.vStrList l) => l.any (fun s => strPatMatches p s)
  | .elemMatchRegex _, _ => false
  | .range lo hi, some (.vInt n) =>
      (match lo with | some a => decide (a ≤ n) | none => true) &&
      (match hi with | some b => decide (n ≤ b) | none => true)
  | .range _ _, _ => false
  | .eqVal v, w => w == some v

def filterMatches (f : MongoFilter) (d : Doc) : Bool :=
  f.fields.all (fun kc => condMatches d kc.1 kc.2) &&
    (match f.orGroup with
     | none => true
     | some alts => alts.any (fun kc => condMatches d kc.1 kc.2))

/-- Modelled from the spec: `get_documents` lives in `database.py`, which is
not part of the sources; §4.1 gives its contract `find(collectionName,
filter) -> sequence of records`.  It returns the documents matching the
filter, in collection order. -/
def get_documents (col : List Doc) (f : MongoFilter) : List Doc :=
  col.filter (fun d => filterMatches f d)

-- ---------------------------------------------------------------------------
-- Trek routes
-- ---------------------------------------------------------------------------

/-- `GET /api/treks` (`list_treks`): builds `filter_q` from the optional query
parameters exactly as the handler does (string parameters are checked for
truthiness, numeric and boolean ones against `None`) and returns the
serialized matches.  FastAPI's `Query(None, ge=1)` bound checks happen before
the handler and are not part of it. -/
def list_treks (col : List Doc) (region difficulty : Option String)
    (min_days max_days : Option Int) (search : Option String)
    (featured : Option Bool) : List Doc :=
  let f0 : MongoFilter := ⟨[], none⟩
  let f1 := if pyTruthyOptStr region then
      { f0 with fields := f0.fields ++ [("region", .regex (.containsCI (region.getD "")))] }
    else f0
  let f2 := if pyTruthyOptStr difficulty then
      { f1 with fields := f1.fields ++ [("difficulty", .regex (.equalsCI (difficulty.getD "")))] }
    else f1
  let f3 := if min_days.isSome || max_days.isSome then
      { f2 with fields := f2.fields ++ [("duration_days", .range min_days max_days)] }
    else f2
  let f4 := if pyTruthyOptStr search then
      { f3 with orGroup := some (
          [("title", .regex (.containsCI (search.getD ""))),
           ("overview", .regex (.containsCI (search.getD ""))),
           ("highlights", .elemMatchRegex (.containsCI (search.getD "")))]) }
    else f3
  let f5 := match featured with
    | some b => { f4 with fields := f4.fields ++ [("is_featured", .eqVal (.vBool b))] }
    | none => f4
  (get_documents col f5).map serialize_doc

/-- `GET /api/treks/{trek_id}` (`get_trek`). -/
def get_trek (col : List Doc) (trek_id : String) : Except PyErr Doc :=
  match to_object_id trek_id with
  | .error e => .error e
  | .ok oid =>
    match findOne col oid with
    | none => .error ⟨404, "Trek not found"⟩
    | some d =>
      if d.isEmpty then .error ⟨404, "Trek not found"⟩
      else .ok (serialize_doc d)

/-- `POST /api/treks` (`create_trek`): admin-gated insert returning the new
id.  `newId` is the ObjectId the driver generates. -/
def create_trek (expected hdr : Option String) (col : List Doc) (payload : Trek)
    (newId : Nat) : Except PyErr (List Doc × String) :=
  match require_admin expected hdr with
  | .error e => .error e
  | .ok _ => .ok (create_document col payload.model_dump newId)

/-- `PUT /api/treks/{trek_id}` (`update_trek`): admin-gated
`update_one({"_id": oid}, {"$set": {**payload.model_dump(), "updated_at": now}})`
followed by a re-read of the document.  The handler parses `trek_id` twice
with identical outcome; the model parses once.  `find_one` returning nothing
right after a successful match cannot happen; that unreachable branch (where
Python would respond `null`) is modelled as an empty document. -/
def update_trek (expected hdr : Option String) (col : List Doc) (trek_id : String)
    (payload : Trek) (now : Nat) : Except PyErr (List Doc × Doc) :=
  match require_admin expected hdr with
  | .error e => .error e
  | .ok _ =>
    match to_object_id trek_id with
    | .error e => .error e
    | .ok oid =>
      let r := applySetFirst oid (payload.model_dump ++ [("updated_at", Value.vDateTime now)]) col
      if r.2 = 0 then .error ⟨404, "Trek not found"⟩
      else
        match findOne r.1 oid with
        | some doc => .ok (r.1, serialize_doc doc)
        | none => .ok (r.1, [])

/-- `DELETE /api/treks/{trek_id}` (`delete_trek`): admin-gated
`delete_one({"_id": oid})`; responds with the raw input id string. -/
def delete_trek (expected hdr : Option String) (col : List Doc)
    (trek_id : String) : Except PyErr (List Doc × String) :=
  match require_admin expected hdr with
  | .error e => .error e
  | .ok _ =>
    match to_object_id trek_id with
    | .error e => .error e
    | .ok oid =>
      let r := deleteFirst oid col
      if r.2 = 0 then .error ⟨404, "Trek not found"⟩
      else .ok (r.1, trek_id)

-- ---------------------------------------------------------------------------
-- Blog post routes (mirror the trek routes)
-- ---------------------------------------------------------------------------

/-- `GET /api/blog-posts/{post_id}` (`get_blog_post`). -/
def get_blog_post (col : List Doc) (post_id : String) : Except PyErr Doc :=
  match to_object_id post_id with
  | .error e => .error e
  | .ok oid =>
    match findOne col oid with
    | none => .error ⟨404, "Post not found"⟩
    | some d =>
      if d.isEmpty then .error ⟨404, "Post not found"⟩
      else .ok (serialize_doc d)

/-- `POST /api/blog-posts` (`create_blog_post`). -/
def create_blog_post (expected hdr : Option String) (col : List Doc)
    (payload : BlogPost) (newId : Nat) : Except PyErr (List Doc × String) :=
  match require_admin expected hdr with
  | .error e => .error e
  | .ok _ => .ok (create_document col payload.model_dump newId)

/-- `PUT /api/blog-posts/{post_id}` (`update_blog_post`). -/
def update_blog_post (expected hdr : Option String) (col : List Doc)
    (post_id : String) (payload : BlogPost) (now : Nat) :
    Except PyErr (List Doc × Doc) :=
  match require_admin expected hdr with
  | .error e => .error e
  | .ok _ =>
    match to_object_id post_id with
    | .error e => .error e
    | .ok oid =>
      let r := applySetFirst oid (payload.model_dump ++ [("updated_at", Value.vDateTime now)]) col
      if r.2 = 0 then .error ⟨404, "Post not found"⟩
      else
        match findOne r.1 oid with
        | some doc => .ok (r.1, serialize_doc doc)
        | none => .ok (r.1, [])

/-- `DELETE /api/blog-posts/{post_id}` (`delete_blog_post`). -/
def delete_blog_post (expected hdr : Option String) (col : List Doc)
    (post_id : String) : Except PyErr (List Doc × String) :=
  match require_admin expected hdr with
  | .error e => .error e
  | .ok _ =>
    match to_object_id post_id with
    | .error e => .error e
    | .ok oid =>
      let r := deleteFirst oid col
      if r.2 = 0 then .error ⟨404, "Post not found"⟩
      else .ok (r.1, post_id)

-- ---------------------------------------------------------------------------
-- Inquiries and email notification (`try_send_email`, `create_inquiry`)
-- ---------------------------------------------------------------------------

def decDigitsToNatAux : List Char → Nat → Option Nat
  | [], acc => some acc
  | c :: cs, acc =>
    if c.isDigit then decDigitsToNatAux cs (acc * 10 + (c.toNat - 48)) else none

/-- Python `int(s)` on a decimal string literal with an optional sign
(the whitespace- and underscore-tolerant forms `int` also accepts are not
modelled); `none` is the `ValueError` case. -/
def parsePyInt (s : String) : Option Int :=
  match s.data with
  | [] => none
  | '-' :: rest =>
    if rest.isEmpty then none else (decDigitsToNatAux rest 0).map (fun n => -(n : Int))
  | '+' :: rest =>
    if rest.isEmpty then none else (decDigitsToNatAux rest 0).map (fun n => (n : Int))
  | l => (decDigitsToNatAux l 0).map (fun n => (n : Int))

/-- The SMTP- and notification-related process environment read by the
handlers (each field is `os.getenv` of the matching variable). -/
structure SmtpEnv where
  smtp_host : Option String
  smtp_port : Option String
  smtp_user : Option String
  smtp_pass : Option String
  smtp_from : Option String
  admin_notify_email : Option String
deriving DecidableEq

/-- `int(os.getenv("SMTP_PORT", "0") or 0)`: the missing variable defaults to
`"0"`, an empty value short-circuits to `0`, anything else goes through
`int(...)` — whose `ValueError` (`none`) escapes the handler. -/
def smtpPortVal (env : SmtpEnv) : Option Int :=
  let v := env.smtp_port.getD "0"
  if v = "" then some 0 else parsePyInt v

/-- Python `a or b` for an optional string against a string default. -/
def pyOrStr (a : Option String) (dflt : String) : String :=
  match a with
  | some s => if s = "" then dflt else s
  | none => dflt

/-- A mail handed to the SMTP transport (the HTML body, built by f-string
interpolation and never inspected afterwards, is not modelled). -/
structure SentMail where
  fromAddr : String
  toAddr : String
  subject : String
deriving DecidableEq

/-- `try_send_email` from `main.py`.  `transportOk` stands for the outcome of
the `smtplib` session: `true` means login+send succeeded, `false` means some
transport exception was raised (and caught).  The second component records
whether a transport attempt was made at all, and with which envelope.
`from_email` is `os.getenv("SMTP_FROM", user or "noreply@example.com")` —
the default only applies when `SMTP_FROM` is absent.  A non-numeric
`SMTP_PORT` raises `ValueError` before the `try` block, escaping as an
internal server error. -/
def try_send_email (env : SmtpEnv) (subject to_email : String)
    (transportOk : Bool) : Except PyErr (Bool × Option SentMail) :=
  match smtpPortVal env with
  | none => .error ⟨500, "Internal Server Error"⟩
  | some port =>
    let from_email :=
      match env.smtp_from with
      | some s => s
      | none => pyOrStr env.smtp_user "noreply@example.com"
    if !(pyTruthyOptStr env.smtp_host && !(port == 0) &&
         pyTruthyOptStr env.smtp_user && pyTruthyOptStr env.smtp_pass) then
      .ok (false, none)
    else if transportOk then .ok (true, some ⟨from_email, to_email, subject⟩)
    else .ok (false, some ⟨from_email, to_email, subject⟩)

/-- The response model of `POST /api/inquiries`. -/
structure InquiryResponse where
  message : String
  id : Option String
deriving DecidableEq

/-- `POST /api/inquiries` (`create_inquiry`): persists the inquiry, then
best-effort sends an admin notification (only when `ADMIN_NOTIFY_EMAIL` is
truthy) and a client acknowledgement.  `adminOk`/`clientOk` are the transport
outcomes of the two sends. -/
def create_inquiry (env : SmtpEnv) (col : List Doc) (payload : Inquiry)
    (newId : Nat) (adminOk clientOk : Bool) :
    Except PyErr (List Doc × InquiryResponse) :=
  let r := create_document col payload.model_dump newId
  let adminSend : Except PyErr (Bool × Option SentMail) :=
    if pyTruthyOptStr env.admin_notify_email then
      try_send_email env "New Trek Inquiry" (env.admin_notify_email.getD "") adminOk
    else .ok (false, none)
  match adminSend with
  | .error e => .error e
  | .ok (admin_ok, _) =>
    match try_send_email env "We received your inquiry - Juma Trek" payload.email clientOk with
    | .error e => .error e
    | .ok (client_ok, _) =>
      let note := if client_ok || admin_ok then " Email notifications sent."
        else " Email notifications skipped."
      .ok (r.1, ⟨"Inquiry submitted successfully." ++ note, some r.2⟩)

/-- `GET /api/inquiries` (`list_inquiries`): admin-gated unfiltered list. -/
def list_inquiries (expected hdr : Option String) (col : List Doc) :
    Except PyErr (List Doc) :=
  match require_admin expected hdr with
  | .error e => .error e
  | .ok _ => .ok ((get_documents col ⟨[], none⟩).map serialize_doc)

-- ---------------------------------------------------------------------------
-- SHA-256 / HMAC / PBKDF2 (`hashlib.pbkdf2_hmac("sha256", ...)`)
-- ---------------------------------------------------------------------------

/-- Truncation to a 32-bit word. -/
def w32 (n : Nat) : Nat :=
  n % 4294967296

/-- Right rotation of a 32-bit word. -/
def rotr32 (r x : Nat) : Nat :=
  w32 ((x >>> r) ||| (x <<< (32 - r)))

def shaCh (x y z : Nat) : Nat :=
  (x &&& y) ^^^ ((x ^^^ 4294967295) &&& z)

def shaMaj (x y z : Nat) : Nat :=
  (x &&& y) ^^^ (x &&& z) ^^^ (y &&& z)

def bigSigma0 (x : Nat) : Nat :=
  rotr32 2 x ^^^ rotr32 13 x ^^^ rotr32 22 x

def bigSigma1 (x : Nat) : Nat :=
  rotr32 6 x ^^^ rotr32 11 x ^^^ rotr32 25 x

def smallSigma0 (x : Nat) : Nat :=
  rotr32 7 x ^^^ rotr32 18 x ^^^ (x >>> 3)

def smallSigma1 (x : Nat) : Nat :=
  rotr32 17 x ^^^ rotr32 19 x ^^^ (x >>> 10)

/-- The SHA-256 round constants (FIPS 180-4 section 4.2.2), in decimal. -/
def sha256K : List Nat :=
  [1116352408, 1899447441, 3049323471, 3921009573, 961987163,
   1508970993, 2453635748, 2870763221, 3624381080, 310598401,
   607225278, 1426881987, 1925078388, 2162078206, 2614888103,
   3248222580, 3835390401, 4022224774, 264347078, 604807628,
   770255983, 1249150122, 1555081692, 1996064986, 2554220882,
   2821834349, 2952996808, 3210313671, 3336571891, 3584528711,
   113926993, 338241895, 666307205, 773529912, 1294757372,
   1396182291, 1695183700, 1986661051, 2177026350, 2456956037,
   2730485921, 2820302411, 3259730800, 3345764771, 3516065817,
   3600352804, 4094571909, 275423344, 430227734, 506948616,
   659060556, 883997877, 958139571, 1322822218, 1537002063,
   1747873779, 1955562222, 2024104815, 2227730452, 2361852424,
   2428436474, 2756734187, 3204031479, 3329325298]

/-- The SHA-256 working state, eight 32-bit words. -/
structure Sha256State where
  a : Nat
  b : Nat
  c : Nat
  d : Nat
  e : Nat
  f : Nat
  g : Nat
  h : Nat

/-- The SHA-256 initial hash value. -/
def sha256H0 : Sha256State :=
  ⟨1779033703, 3144134277, 1013904242, 2773480762,
   1359893119, 2600822924, 528734635, 1541459225⟩

/-- One SHA-256 compression round, consuming a round constant and a schedule
word. -/
def sha256Round (st : Sha256State) (kw : Nat × Nat) : Sha256State :=
  let t1 := w32 (st.h + bigSigma1 st.e + shaCh st.e st.f st.g + kw.1 + kw.2)
  let t2 := w32 (bigSigma0 st.a + shaMaj st.a st.b st.c)
  ⟨w32 (t1 + t2), st.a, st.b, st.c, w32 (st.d + t1), st.e, st.f, st.g⟩

/-- Big-endian bytes of `n`, fixed width `w`. -/
def toBytesBE (w n : Nat) : List Nat :=
  match w with
  | 0 => []
  | w' + 1 => toBytesBE w' (n / 256) ++ [n % 256]

/-- The 16 initial schedule words of one 64-byte block (big-endian). -/
def blockWords : List Nat → List Nat
  | b0 :: b1 :: b2 :: b3 :: rest => (((b0 * 256 + b1) * 256 + b2) * 256 + b3) :: blockWords rest
  | _ => []

/-- Extends the message schedule by `n` further words. -/
def extendSchedule : Nat → List Nat → List Nat
  | 0, ws => ws
  | n + 1, ws =>
    let t := w32 (smallSigma1 (ws.getD (ws.length - 2) 0) + ws.getD (ws.length - 7) 0 +
      smallSigma0 (ws.getD (ws.length - 15) 0) + ws.getD (ws.length - 16) 0)
    extendSchedule n (ws ++ [t])

/-- Compression of one 64-byte block into the chained state. -/
def sha256Block (st : Sha256State) (block : List Nat) : Sha256State :=
  let ws := extendSchedule 48 (blockWords block)
  let fin := (sha256K.zip ws).foldl sha256Round st
  ⟨w32 (st.a + fin.a), w32 (st.b + fin.b), w32 (st.c + fin.c), w32 (st.d + fin.d),
   w32 (st.e + fin.e), w32 (st.f + fin.f), w32 (st.g + fin.g), w32 (st.h + fin.h)⟩

/-- Splits a padded message into `n` blocks of 64 bytes. -/
def chunks64 : Nat → List Nat → List (List Nat)
  | 0, _ => []
  | n + 1, l => l.take 64 :: chunks64 n (l.drop 64)

/-- Big-endian bytes of one 32-bit word. -/
def wordBytes (x : Nat) : List Nat :=
  [x / 16777216 % 256, x / 65536 % 256, x / 256 % 256, x % 256]

/-- SHA-256 of a byte string (FIPS 180-4): pad to a multiple of 64 bytes with
`0x80`, zeros and the 64-bit big-endian bit length, then compress each block. -/
def sha256 (msg : List Nat) : List Nat :=
  let padded := msg ++ 128 :: List.replicate ((119 - msg.length % 64) % 64) 0
    ++ toBytesBE 8 (8 * msg.length)
  let st := (chunks64 (padded.length / 64) padded).foldl sha256Block sha256H0
  wordBytes st.a ++ wordBytes st.b ++ wordBytes st.c ++ wordBytes st.d ++
    wordBytes st.e ++ wordBytes st.f ++ wordBytes st.g ++ wordBytes st.h

theorem sha256_length (msg : List Nat) : (sha256 msg).length = 32 := by
  simp [sha256, wordBytes]

/-- Byte-wise xor of two equal-length byte strings. -/
def xorBytes (a b : List Nat) : List Nat :=
  List.zipWith (fun x y => x ^^^ y) a b

theorem xorBytes_length (a b : List Nat) (ha : a.length = 32) (hb : b.length = 32) :
    (xorBytes a b).length = 32 := by
  simp [xorBytes, ha, hb]

/-- HMAC-SHA256 (RFC 2104): block size 64 bytes. -/
def hmacSha256 (key msg : List Nat) : List Nat :=
  let keyAdj := if key.length > 64 then sha256 key else key
  let k0 := keyAdj ++ List.replicate (64 - keyAdj.length) 0
  sha256 ((k0.map (fun b => b ^^^ 92)) ++ sha256 ((k0.map (fun b => b ^^^ 54)) ++ msg))

theorem hmacSha256_length (key msg : List Nat) : (hmacSha256 key msg).length = 32 := by
  simp [hmacSha256, sha256_length]

/-- The iteration loop of PBKDF2: `i` remaining iterations, previous block
`u`, accumulated xor `t`. -/
def pbkdf2Loop : Nat → List Nat → List Nat → List Nat → List Nat
  | 0, _, _, t => t
  | i + 1, pw, u, t =>
    let u' := hmacSha256 pw u
    pbkdf2Loop i pw u' (xorBytes t u')

theorem pbkdf2Loop_length (i : Nat) : ∀ (pw u t : List Nat), t.length = 32 →
    (pbkdf2Loop i pw u t).length = 32 := by
  induction i with
  | zero => intro pw u t ht; exact ht
  | succ i ih =>
    intro pw u t ht
    exact ih pw _ _ (xorBytes_length _ _ ht (hmacSha256_length _ _))

/-- PBKDF2-HMAC-SHA256 (RFC 8018) with the derived-key length left at the
digest size (32 bytes), as `hashlib.pbkdf2_hmac("sha256", pw, salt, c)` uses
it: a single block `T_1 = U_1 ^ ... ^ U_c` with
`U_1 = HMAC(pw, salt || 0x00000001)`.  `hashlib` rejects `c = 0`; that
unreachable case returns the empty string. -/
def pbkdf2HmacSha256 (pw salt : List Nat) (c : Nat) : List Nat :=
  match c with
  | 0 => []
  | c' + 1 =>
    let u1 := hmacSha256 pw (salt ++ [0, 0, 0, 1])
    pbkdf2Loop c' pw u1 u1

theorem pbkdf2HmacSha256_length (pw salt : List Nat) (c : Nat) (hc : c ≠ 0) :
    (pbkdf2HmacSha256 pw salt c).length = 32 := by
  cases c with
  | zero => exact absurd rfl hc
  | succ c' => exact pbkdf2Loop_length c' pw _ _ (hmacSha256_length _ _)

/-- UTF-8 encoding of one code point (Python `str.encode()`). -/
def utf8Bytes (ch : Char) : List Nat :=
  let n := ch.toNat
  if n < 128 then [n]
  else if n < 2048 then [192 + n / 64, 128 + n % 64]
  else if n < 65536 then [224 + n / 4096, 128 + n / 64 % 64, 128 + n % 64]
  else [240 + n / 262144, 128 + n / 4096 % 64, 128 + n / 64 % 64, 128 + n % 64]

/-- Python `s.encode()`: the UTF-8 bytes of a string. -/
def strBytes (s : String) : List Nat :=
  (s.data.map utf8Bytes).flatten

/-- Python `bytes.hex()` / `secrets.token_hex`: two lowercase hex digits per
byte. -/
def hexEncode (bytes : List Nat) : String :=
  ⟨(bytes.map (fun b => [hexDigitChar (b / 16 % 16), hexDigitChar (b % 16)])).flatten⟩

theorem hexEncode_length (bytes : List Nat) : (hexEncode bytes).length = 2 * bytes.length := by
  show ((bytes.map (fun b => [hexDigitChar (b / 16 % 16), hexDigitChar (b % 16)])).flatten).length
    = 2 * bytes.length
  induction bytes with
  | nil => rfl
  | cons b rest ih =>
    simp only [List.map_cons, List.flatten_cons, List.length_append, ih, List.length_cons,
      List.length_nil]
    omega

/-- Lowercase-hex character test. -/
def isLowerHexChar (c : Char) : Bool :=
  c.isDigit || ('a' ≤ c && c ≤ 'f')

theorem isLowerHexChar_hexDigitChar : ∀ m, m < 16 → isLowerHexChar (hexDigitChar m) = true := by
  decide

theorem hexEncode_chars (bytes : List Nat) :
    (hexEncode bytes).data.all isLowerHexChar = true := by
  show ((bytes.map (fun b => [hexDigitChar (b / 16 % 16), hexDigitChar (b % 16)])).flatten).all
    isLowerHexChar = true
  induction bytes with
  | nil => rfl
  | cons b rest ih =>
    simp only [List.map_cons, List.flatten_cons, List.all_append, ih, Bool.and_true]
    simp [isLowerHexChar_hexDigitChar _ (Nat.mod_lt _ (by norm_num))]

-- ---------------------------------------------------------------------------
-- Admin users (`hash_password`, `create_admin_user`, `admin_login`)
-- ---------------------------------------------------------------------------

/-- `hash_password` from `main.py`: `salt = salt or secrets.token_hex(16)`
(so `None` *and* the empty string are replaced by a fresh salt, passed here as
the `freshSalt` parameter), then
`hashlib.pbkdf2_hmac("sha256", password.encode(), salt.encode(), 100_000)`,
returned as `(hex digest, salt)`. -/
def hash_password (password : String) (salt : Option String) (freshSalt : String) :
    String × String :=
  let s := match salt with
    | some s' => if s' = "" then freshSalt else s'
    | none => freshSalt
  (hexEncode (pbkdf2HmacSha256 (strBytes password) (strBytes s) 100000), s)

/-- `POST /api/admin/users` (`create_admin_user`): admin-gated; hashes the
plaintext password with a fresh salt and stores the `AdminUser` dump
(`role` defaulting to `"admin"`). -/
def create_admin_user (expected hdr : Option String) (col : List Doc)
    (email password : String) (full_name : Option String) (freshSalt : String)
    (newId : Nat) : Except PyErr (List Doc × String) :=
  match require_admin expected hdr with
  | .error e => .error e
  | .ok _ =>
    let hp := hash_password password none freshSalt
    let adminDoc : AdminUser := ⟨email, hp.1, hp.2, full_name, "admin"⟩
    .ok (create_document col adminDoc.model_dump newId)

/-- `find_one({"email": email})` on the admin-user collection. -/
def findUserByEmail (users : List Doc) (email : String) : Option Doc :=
  users.find? (fun d => Doc.find d "email" == some (Value.vStr email))

/-- The success payload of `POST /api/admin/login`. -/
structure LoginResult where
  token : String
  userEmail : Option Value
  userId : String
deriving DecidableEq

/-- `POST /api/admin/login` (`admin_login`): email lookup (no match is 401),
hash recomputation with the stored salt (`user.get` of a missing salt is
`None`, for which `hash_password` draws a fresh salt — `freshSalt`; a stored
salt that is not a string would crash `salt.encode()`, modelled as a 500),
constant comparison against the stored hash (mismatch is the same 401), then
a token: `os.getenv("ADMIN_API_KEY") or "dev-admin"`.  The comparison and the
response construction are split into `adminLoginCheck`. -/
def adminLoginCheck (u : Doc) (saltOpt : Option String) (password : String)
    (adminKey : Option String) (freshSalt : String) : Except PyErr LoginResult :=
  let calcHash := (hash_password password saltOpt freshSalt).1
  if Doc.find u "password_hash" == some (.vStr calcHash) then
    .ok ⟨pyOrStr adminKey "dev-admin", Doc.find u "email", pyStrOpt (Doc.find u "_id")⟩
  else .error ⟨401, "Invalid credentials"⟩

def admin_login (users : List Doc) (email password : String)
    (adminKey : Option String) (freshSalt : String) : Except PyErr LoginResult :=
  match findUserByEmail users email with
  | none => .error ⟨401, "Invalid credentials"⟩
  | some u =>
    match Doc.find u "password_salt" with
    | some (.vStr s) => adminLoginCheck u (some s) password adminKey freshSalt
    | none => adminLoginCheck u none password adminKey freshSalt
    | some _ => .error ⟨500, "Internal Server Error"⟩

-- ---------------------------------------------------------------------------
-- Shared helper lemmas
-- ---------------------------------------------------------------------------

theorem findOne_append_of_not_found (oid : Nat) (nd : Doc)
    (hnd : Doc.find nd "_id" = some (Value.vOid oid)) :
    ∀ col : List Doc, (∀ d ∈ col, Doc.find d "_id" ≠ some (Value.vOid oid)) →
      findOne (col ++ [nd]) oid = some nd := by
  intro col
  induction col with
  | nil =>
    intro _
    rw [findOne]
    simp [List.find?_cons, hnd]
  | cons x xs ih =>
    intro h
    have hx : (Doc.find x "_id" == some (Value.vOid oid)) = false := by
      simpa using h x (List.mem_cons_self _ _)
    rw [findOne, List.cons_append, List.find?_cons, hx]
    exact ih (fun d hd => h d (List.mem_cons_of_mem _ hd))

/-- The combined effect of a successful `update_one` on the collection:
the first matching document gets exactly the `$set` fields, keeps its `_id`
and every field outside the `$set` document, every other document is
untouched, and the follow-up `find_one` sees the updated document. -/
theorem updateCore_frame (col : List Doc) (oid : Nat) (kvs : List (String × Value))
    (hidnot : "_id" ∉ kvs.map Prod.fst) (col' : List Doc) (cnt : Nat)
    (happ : applySetFirst oid kvs col = (col', cnt)) (hcnt : cnt ≠ 0) :
    ∃ i d, col.get? i = some d ∧ Doc.find d "_id" = some (Value.vOid oid) ∧
      col' = col.set i (Doc.setMany d kvs) ∧
      Doc.find (Doc.setMany d kvs) "_id" = Doc.find d "_id" ∧
      (∀ k, k ∉ kvs.map Prod.fst → Doc.find (Doc.setMany d kvs) k = Doc.find d k) ∧
      (∀ j, j ≠ i → col'.get? j = col.get? j) ∧
      findOne col' oid = some (Doc.setMany d kvs) := by
  cases hfo : findOne col oid with
  | none =>
    rw [applySetFirst_of_none oid kvs col hfo] at happ
    injection happ with h1 h2
    subst h2
    exact absurd rfl hcnt
  | some d =>
    obtain ⟨i, hget, hid, hbef, happ2⟩ := applySetFirst_of_some oid kvs col d hfo
    rw [happ2] at happ
    injection happ with h1 h2
    subst h1
    have hframe : ∀ k, k ∉ kvs.map Prod.fst →
        Doc.find (Doc.setMany d kvs) k = Doc.find d k :=
      fun k hk => Doc.find_setMany_not_mem kvs d k hk
    have hid' : Doc.find (Doc.setMany d kvs) "_id" = some (Value.vOid oid) := by
      rw [hframe "_id" hidnot]; exact hid
    refine ⟨i, d, hget, hid, rfl, by rw [hframe "_id" hidnot], hframe, ?_, ?_⟩
    · intro j hj; exact get?_set_ne col i j _ hj
    · exact findOne_set_of_mem col i d (Doc.setMany d kvs) oid hget hbef hid'

theorem find_serialize_of_find (d : Doc) (k : String) (hne : ¬ d.isEmpty = true)
    (hid : k ≠ "id") (hund : k ≠ "_id") (oidv : Value)
    (hfid : Doc.find d "_id" = some oidv) :
    Doc.find (serialize_doc d) k = (Doc.find d k).map convertValue := by
  unfold serialize_doc
  rw [if_neg hne, hfid, Doc.find_mapValues, Doc.find_setKey_ne _ _ _ _ hid,
    Doc.find_erase_ne _ _ _ hund]

theorem find_serialize_id (d : Doc) (hne : ¬ d.isEmpty = true) (oidv : Value)
    (hfid : Doc.find d "_id" = some oidv) :
    Doc.find (serialize_doc d) "id" = some (Value.vStr (valueStr oidv)) := by
  unfold serialize_doc
  rw [if_neg hne, hfid, Doc.find_mapValues, Doc.find_setKey_self]
  rfl

theorem nonEmpty_of_find (d : Doc) (k : String) (v : Value)
    (h : Doc.find d k = some v) : ¬ d.isEmpty = true := by
  cases d with
  | nil => cases h
  | cons kv rest => simp

theorem trek_set_keys (p : Trek) (now : Nat) :
    (p.model_dump ++ [("updated_at", Value.vDateTime now)]).map Prod.fst
      = trekFieldNames ++ ["updated_at"] := by
  simp [Trek.model_dump, trekFieldNames]

theorem blog_set_keys (p : BlogPost) (now : Nat) :
    (p.model_dump ++ [("updated_at", Value.vDateTime now)]).map Prod.fst
      = blogFieldNames ++ ["updated_at"] := by
  simp [BlogPost.model_dump, blogFieldNames]

theorem trek_dump_convertValue (p : Trek) :
    ∀ kv ∈ p.model_dump, convertValue kv.2 = kv.2 := by
  intro kv hkv
  simp only [Trek.model_dump, List.mem_cons, List.not_mem_nil, or_false] at hkv
  rcases hkv with h|h|h|h|h|h|h|h|h|h|h|h|h|h <;> subst h <;>
    first
      | rfl
      | apply convertValue_optStr
      | apply convertValue_optInt

theorem serialize_new_doc (payload : Doc) (nid : Nat)
    (hconv : ∀ kv ∈ payload, convertValue kv.2 = kv.2)
    (hnoid : "_id" ∉ payload.map Prod.fst)
    (hnoid2 : "id" ∉ payload.map Prod.fst) :
    serialize_doc (("_id", Value.vOid nid) :: payload)
      = payload ++ [("id", Value.vStr (oidHex nid))] := by
  unfold serialize_doc
  rw [if_neg (by simp)]
  have hfid : Doc.find (("_id", Value.vOid nid) :: payload) "_id"
      = some (Value.vOid nid) := by
    simp [Doc.find]
  rw [hfid]
  have herase : Doc.erase (("_id", Value.vOid nid) :: payload) "_id" = payload := by
    show (if ("_id" : String) = "_id" then Doc.erase payload "_id"
      else ("_id", Value.vOid nid) :: Doc.erase payload "_id") = payload
    rw [if_pos rfl]
    clear hfid hconv hnoid2
    induction payload with
    | nil => rfl
    | cons kv rest ih =>
      simp only [List.map_cons, List.mem_cons, not_or] at hnoid
      rw [Doc.erase, if_neg (fun h => hnoid.1 h.symm), ih hnoid.2]
  have hset : Doc.setKey payload "id" (Value.vStr (valueStr (Value.vOid nid)))
      = payload ++ [("id", Value.vStr (oidHex nid))] := by
    clear hfid herase hconv hnoid
    induction payload with
    | nil => rfl
    | cons kv rest ih =>
      simp only [List.map_cons, List.mem_cons, not_or] at hnoid2
      rw [Doc.setKey, if_neg (fun h => hnoid2.1 h.symm), ih hnoid2.2]
      rfl
  show Doc.mapValues convertValue
      (Doc.setKey (Doc.erase (("_id", Value.vOid nid) :: payload) "_id") "id"
        (Value.vStr (valueStr (Value.vOid nid))))
    = payload ++ [("id", Value.vStr (oidHex nid))]
  rw [herase, hset]
  unfold Doc.mapValues
  rw [List.map_append]
  have h1 : payload.map (fun kv => (kv.1, convertValue kv.2)) = payload := by
    calc payload.map (fun kv => (kv.1, convertValue kv.2))
        = payload.map id := List.map_congr_left (fun kv hkv => by
          rw [hconv kv hkv]; rfl)
    _ = payload := List.map_id payload
  rw [h1]
  rfl

-- ---------------------------------------------------------------------------
-- Claim theorems
-- ---------------------------------------------------------------------------

/-- C3: when an admin shared-secret is configured (a nonempty value), any
admin-gated request whose `X-Admin-Key` header is missing or different from
the secret fails with 401 Unauthorized — shown for the gate itself and for
the create-Trek route; when no secret is configured, every such request
passes the gate and the create succeeds. -/
theorem admin_gate_configured_secret :
    (∀ secret hdr, secret ≠ "" → hdr ≠ some secret →
      require_admin (some secret) hdr = .error ⟨401, "Unauthorized"⟩) ∧
    (∀ hdr, require_admin none hdr = .ok true) ∧
    (∀ secret hdr col p nid, secret ≠ "" → hdr ≠ some secret →
      create_trek (some secret) hdr col p nid = .error ⟨401, "Unauthorized"⟩) ∧
    (∀ hdr col p nid,
      create_trek none hdr col p nid = .ok (create_document col p.model_dump nid)) := by
  have hgate : ∀ secret hdr, secret ≠ "" → hdr ≠ some secret →
      require_admin (some secret) hdr = .error ⟨401, "Unauthorized"⟩ := by
    intro secret hdr hs hh
    have h1 : pyTruthyOptStr (some secret) = true := by
      simp [pyTruthyOptStr, hs]
    have h2 : (hdr == some secret) = false := by
      simp [hh]
    simp [require_admin, h1, h2]
  have hopen : ∀ hdr, require_admin none hdr = .ok true := by
    intro hdr
    simp [require_admin, pyTruthyOptStr]
  refine ⟨hgate, hopen, ?_, ?_⟩
  · intro secret hdr col p nid hs hh
    rw [create_trek, hgate secret hdr hs hh]
  · intro hdr col p nid
    rw [create_trek, hopen hdr]

/-- C3 witness: the gate at concrete inputs — secret `"s3cret"` with a missing
header is rejected, no secret with a missing header is admitted, and the
corresponding create-Trek calls behave the same way. -/
theorem admin_gate_configured_secret_witness :
    require_admin (some "s3cret") none = .error ⟨401, "Unauthorized"⟩ ∧
    require_admin none none = .ok true ∧
    create_trek (some "s3cret") (some "wrong") [] ⟨"T", none, "R", "Easy", 3, 10, none,
      [], "O", [], [], [], [], false⟩ 1 = .error ⟨401, "Unauthorized"⟩ :=
  ⟨admin_gate_configured_secret.1 "s3cret" none (by decide) (by decide),
   admin_gate_configured_secret.2.1 none,
   admin_gate_configured_secret.2.2.1 "s3cret" (some "wrong") [] _ 1 (by decide) (by decide)⟩

/-- C9: an admin secret set to the empty string is falsy in Python, so the
gate treats it as unconfigured and admits every request; in general
`require_admin` raises 401 exactly when the configured key is a nonempty
string and the presented header differs from it. -/
theorem admin_gate_empty_secret_open :
    (∀ hdr, require_admin (some "") hdr = .ok true) ∧
    (∀ expected hdr,
      require_admin expected hdr = .error ⟨401, "Unauthorized"⟩
        ↔ ∃ s, expected = some s ∧ s ≠ "" ∧ hdr ≠ some s) := by
  constructor
  · intro hdr
    simp [require_admin, pyTruthyOptStr]
  · intro expected hdr
    constructor
    · intro h
      match expected with
      | none => simp [require_admin, pyTruthyOptStr] at h
      | some s =>
        by_cases hs : s = ""
        · subst hs
          simp [require_admin, pyTruthyOptStr] at h
        · by_cases hh : hdr = some s
          · subst hh
            have h1 : pyTruthyOptStr (some s) = true := by simp [pyTruthyOptStr, hs]
            simp [require_admin, h1] at h
          · exact ⟨s, rfl, hs, hh⟩
    · rintro ⟨s, rfl, hs, hh⟩
      have h1 : pyTruthyOptStr (some s) = true := by simp [pyTruthyOptStr, hs]
      have h2 : (hdr == some s) = false := by simp [hh]
      simp [require_admin, h1, h2]

/-- C9 witness: with `ADMIN_API_KEY=""` a request with an arbitrary header
value passes, and the characterization applied at a configured secret with a
missing header yields the 401. -/
theorem admin_gate_empty_secret_open_witness :
    require_admin (some "") (some "anything") = .ok true ∧
    require_admin (some "k") none = .error ⟨401, "Unauthorized"⟩ :=
  ⟨admin_gate_empty_secret_open.1 (some "anything"),
   (admin_gate_empty_secret_open.2 (some "k") none).mpr ⟨"k", rfl, by decide, by decide⟩⟩

/-- C5 (amended): an identifier string that is not a 24-character hexadecimal
string — of either case, as `bson.ObjectId` accepts it — fails every by-id
route (treks and blog posts, get/update/delete) with 400 `"Invalid id"`
before any lookup is attempted (the collection is universally quantified
after the error is fixed), while a well-formed id that matches no record
yields the route's 404. -/
theorem byid_routes_id_validation :
    (∀ s, (∃ n, to_object_id s = .ok n)
      ↔ (s.length = 24 ∧ s.data.all (fun c => (hexCharVal c).isSome) = true)) ∧
    (∀ s, to_object_id s = .error ⟨400, "Invalid id"⟩ →
      (∀ col, get_trek col s = .error ⟨400, "Invalid id"⟩) ∧
      (∀ col, get_blog_post col s = .error ⟨400, "Invalid id"⟩) ∧
      (∀ ek hdr col p now, require_admin ek hdr = .ok true →
        update_trek ek hdr col s p now = .error ⟨400, "Invalid id"⟩) ∧
      (∀ ek hdr col p now, require_admin ek hdr = .ok true →
        update_blog_post ek hdr col s p now = .error ⟨400, "Invalid id"⟩) ∧
      (∀ ek hdr col, require_admin ek hdr = .ok true →
        delete_trek ek hdr col s = .error ⟨400, "Invalid id"⟩) ∧
      (∀ ek hdr col, require_admin ek hdr = .ok true →
        delete_blog_post ek hdr col s = .error ⟨400, "Invalid id"⟩)) ∧
    (∀ s n col, to_object_id s = .ok n → findOne col n = none →
      get_trek col s = .error ⟨404, "Trek not found"⟩ ∧
      get_blog_post col s = .error ⟨404, "Post not found"⟩ ∧
      (∀ ek hdr p now, require_admin ek hdr = .ok true →
        update_trek ek hdr col s p now = .error ⟨404, "Trek not found"⟩) ∧
      (∀ ek hdr p now, require_admin ek hdr = .ok true →
        update_blog_post ek hdr col s p now = .error ⟨404, "Post not found"⟩) ∧
      (∀ ek hdr, require_admin ek hdr = .ok true →
        delete_trek ek hdr col s = .error ⟨404, "Trek not found"⟩) ∧
      (∀ ek hdr, require_admin ek hdr = .ok true →
        delete_blog_post ek hdr col s = .error ⟨404, "Post not found"⟩)) := by
  refine ⟨to_object_id_ok_iff, ?_, ?_⟩
  · intro s hbad
    refine ⟨?_, ?_, ?_, ?_, ?_, ?_⟩
    · intro col; rw [get_trek, hbad]
    · intro col; rw [get_blog_post, hbad]
    · intro ek hdr col p now hauth; rw [update_trek, hauth, hbad]
    · intro ek hdr col p now hauth; rw [update_blog_post, hauth, hbad]
    · intro ek hdr col hauth; rw [delete_trek, hauth, hbad]
    · intro ek hdr col hauth; rw [delete_blog_post, hauth, hbad]
  · intro s n col hok hnone
    refine ⟨?_, ?_, ?_, ?_, ?_, ?_⟩
    · simp [get_trek, hok, hnone]
    · simp [get_blog_post, hok, hnone]
    · intro ek hdr p now hauth
      simp [update_trek, hauth, hok, applySetFirst_of_none _ _ _ hnone]
    · intro ek hdr p now hauth
      simp [update_blog_post, hauth, hok, applySetFirst_of_none _ _ _ hnone]
    · intro ek hdr hauth
      simp [delete_trek, hauth, hok, deleteFirst_of_none _ _ hnone]
    · intro ek hdr hauth
      simp [delete_blog_post, hauth, hok, deleteFirst_of_none _ _ hnone]

/-- C5 counterexample: `"ABCDEFABCDEFABCDEFABCDEF"` does not match the spec's
wire format (24 *lowercase* hex characters), yet `GET /api/treks/{id}` on an
empty collection answers 404 Not Found, not 400 Bad Request: `ObjectId`
accepts uppercase hex digits, so the claim as stated is false. -/
theorem byid_routes_id_validation_cex :
    specLowercaseHex24 "ABCDEFABCDEFABCDEFABCDEF" = false ∧
    get_trek [] "ABCDEFABCDEFABCDEFABCDEF" = .error ⟨404, "Trek not found"⟩ := by
  constructor
  · decide
  · rfl

/-- C5 witness: the amended statement applied at `"not-an-id"` (padded to any
length it remains non-hexadecimal) and at a well-formed absent id. -/
theorem byid_routes_id_validation_witness :
    to_object_id "not-an-id" = .error ⟨400, "Invalid id"⟩ ∧
    get_trek [] "not-an-id" = .error ⟨400, "Invalid id"⟩ ∧
    get_trek [] (oidHex 7) = .error ⟨404, "Trek not found"⟩ :=
  ⟨rfl,
   (byid_routes_id_validation.2.1 "not-an-id" rfl).1 [],
   (byid_routes_id_validation.2.2 (oidHex 7) 7 []
      (to_object_id_oidHex 7 (by norm_num)) rfl).1⟩

/-- C8: with `min_days=5` and `max_days=10` (and no other filters),
`GET /api/treks` returns exactly the serialized treks whose `duration_days`
is an integer in the inclusive range `[5, 10]`; each bound is applied only
when supplied, and omitting both imposes no duration constraint at all. -/
theorem list_treks_duration_range (col : List Doc) :
    (list_treks col none none (some 5) (some 10) none none
      = (col.filter (fun d =>
          match Doc.find d "duration_days" with
          | some (.vInt n) => decide (5 ≤ n) && decide (n ≤ 10)
          | _ => false)).map serialize_doc) ∧
    (list_treks col none none (some 5) none none none
      = (col.filter (fun d =>
          match Doc.find d "duration_days" with
          | some (.vInt n) => decide (5 ≤ n)
          | _ => false)).map serialize_doc) ∧
    (list_treks col none none none (some 10) none none
      = (col.filter (fun d =>
          match Doc.find d "duration_days" with
          | some (.vInt n) => decide (n ≤ 10)
          | _ => false)).map serialize_doc) ∧
    (list_treks col none none none none none none = col.map serialize_doc) := by
  refine ⟨?_, ?_, ?_, ?_⟩
  · show (col.filter (fun d =>
        filterMatches ⟨[("duration_days", Cond.range (some 5) (some 10))], none⟩ d)).map
          serialize_doc = _
    congr 1
    apply List.filter_congr
    intro d _
    cases hf : Doc.find d "duration_days" with
    | none => simp [filterMatches, condMatches, hf]
    | some v => cases v <;> simp [filterMatches, condMatches, hf]
  · show (col.filter (fun d =>
        filterMatches ⟨[("duration_days", Cond.range (some 5) none)], none⟩ d)).map
          serialize_doc = _
    congr 1
    apply List.filter_congr
    intro d _
    cases hf : Doc.find d "duration_days" with
    | none => simp [filterMatches, condMatches, hf]
    | some v => cases v <;> simp [filterMatches, condMatches, hf]
  · show (col.filter (fun d =>
        filterMatches ⟨[("duration_days", Cond.range none (some 10))], none⟩ d)).map
          serialize_doc = _
    congr 1
    apply List.filter_congr
    intro d _
    cases hf : Doc.find d "duration_days" with
    | none => simp [filterMatches, condMatches, hf]
    | some v => cases v <;> simp [filterMatches, condMatches, hf]
  · show (col.filter (fun d => filterMatches ⟨[], none⟩ d)).map serialize_doc = _
    have : ∀ d : Doc, filterMatches ⟨[], none⟩ d = true := by
      intro d; rfl
    simp only [this, List.filter_true]

/-- C8 witness: two stored treks of 7 and 12 days — the bounded listing keeps
exactly the 7-day one, the unbounded listing keeps both. -/
theorem list_treks_duration_range_witness :
    list_treks [[("_id", Value.vOid 1), ("duration_days", Value.vInt 7)],
        [("_id", Value.vOid 2), ("duration_days", Value.vInt 12)]]
        none none (some 5) (some 10) none none
      = [[("duration_days", Value.vInt 7), ("id", Value.vStr (oidHex 1))]] ∧
    list_treks [[("_id", Value.vOid 1), ("duration_days", Value.vInt 7)],
        [("_id", Value.vOid 2), ("duration_days", Value.vInt 12)]]
        none none none none none none
      = [[("duration_days", Value.vInt 7), ("id", Value.vStr (oidHex 1))],
         [("duration_days", Value.vInt 12), ("id", Value.vStr (oidHex 2))]] := by
  constructor
  · rw [(list_treks_duration_range _).1]
    rfl
  · rw [(list_treks_duration_range _).2.2.2]
    rfl

/-- C1: for every valid Trek payload, an authorized create followed by a get
of the returned id yields exactly the payload's fields plus the generated
string `id`, with no `updated_at` field present.  `nid` is the ObjectId the
driver generates (fresh, hence not already in the collection). -/
theorem trek_create_then_get (ek hdr : Option String) (col : List Doc) (p : Trek)
    (nid : Nat) (hauth : require_admin ek hdr = .ok true) (hvalid : p.isValid)
    (hn : nid < 16 ^ 24)
    (hfresh : ∀ d ∈ col, Doc.find d "_id" ≠ some (Value.vOid nid)) :
    create_trek ek hdr col p nid
        = .ok (col ++ [("_id", Value.vOid nid) :: p.model_dump], oidHex nid) ∧
    get_trek (col ++ [("_id", Value.vOid nid) :: p.model_dump]) (oidHex nid)
        = .ok (p.model_dump ++ [("id", Value.vStr (oidHex nid))]) ∧
    Doc.find (p.model_dump ++ [("id", Value.vStr (oidHex nid))]) "updated_at" = none := by
  have hno1 : "_id" ∉ p.model_dump.map Prod.fst := by simp [Trek.model_dump]
  have hno2 : "id" ∉ p.model_dump.map Prod.fst := by simp [Trek.model_dump]
  have hfound : findOne (col ++ [("_id", Value.vOid nid) :: p.model_dump]) nid
      = some (("_id", Value.vOid nid) :: p.model_dump) :=
    findOne_append_of_not_found nid _ (by simp [Doc.find]) col hfresh
  refine ⟨?_, ?_, ?_⟩
  · rw [create_trek, hauth]
    rfl
  · simp only [get_trek, to_object_id_oidHex nid hn, hfound, List.isEmpty_cons,
      Bool.false_eq_true, if_false]
    rw [serialize_new_doc p.model_dump nid (trek_dump_convertValue p) hno1 hno2]
  · have : "updated_at" ∉ (p.model_dump ++ [("id", Value.vStr (oidHex nid))]).map Prod.fst := by
      simp [Trek.model_dump]
    clear hno1 hno2 hfound hfresh
    generalize p.model_dump ++ [("id", Value.vStr (oidHex nid))] = l at this
    induction l with
    | nil => rfl
    | cons kv rest ih =>
      simp only [List.map_cons, List.mem_cons, not_or] at this
      rw [Doc.find, if_neg (fun h => this.1 h.symm)]
      exact ih this.2

/-- A concrete valid Trek payload used by witnesses. -/
def witnessTrek : Trek :=
  ⟨"Everest Base Camp", none, "Khumbu", "Moderate", 12, 1400, some 5364,
   ["Kala Patthar"], "Classic EBC route", [], [], [], [], true⟩

/-- C1 witness: creating `witnessTrek` in an empty collection under an open
gate and reading it back. -/
theorem trek_create_then_get_witness :
    create_trek none none [] witnessTrek 5
        = .ok ([] ++ [("_id", Value.vOid 5) :: witnessTrek.model_dump], oidHex 5) ∧
    get_trek ([] ++ [("_id", Value.vOid 5) :: witnessTrek.model_dump]) (oidHex 5)
        = .ok (witnessTrek.model_dump ++ [("id", Value.vStr (oidHex 5))]) ∧
    Doc.find (witnessTrek.model_dump ++ [("id", Value.vStr (oidHex 5))]) "updated_at" = none :=
  trek_create_then_get none none [] witnessTrek 5 rfl (by decide) (by norm_num)
    (by intro d hd; cases hd)

theorem trek_dump_keys (p : Trek) : p.model_dump.map Prod.fst = trekFieldNames := by
  simp [Trek.model_dump, trekFieldNames]

/-- C2: for an existing Trek id and a valid payload `p2`, an authorized
update replaces every Trek field of the matched document with `p2`'s fields,
stamps `updated_at` with the (serialized) current time, and returns the
updated serialized record — which is exactly what a subsequent get of the
same id returns; if no document matches the id, the update fails with 404
Not Found. -/
theorem trek_update_then_get (ek hdr : Option String) (col : List Doc) (idStr : String)
    (oid : Nat) (p2 : Trek) (now : Nat)
    (hauth : require_admin ek hdr = .ok true)
    (hid : to_object_id idStr = .ok oid) (hvalid : p2.isValid) :
    (∀ d, findOne col oid = some d →
      ∃ col' res, update_trek ek hdr col idStr p2 now = .ok (col', res) ∧
        get_trek col' idStr = .ok res ∧
        (∀ kv ∈ p2.model_dump, Doc.find res kv.1 = some kv.2) ∧
        Doc.find res "updated_at" = some (.vStr (isoOfDateTime now)) ∧
        Doc.find res "id" = some (.vStr (oidHex oid))) ∧
    (findOne col oid = none →
      update_trek ek hdr col idStr p2 now = .error ⟨404, "Trek not found"⟩) := by
  constructor
  · intro d hd
    set kvs := p2.model_dump ++ [("updated_at", Value.vDateTime now)] with hkvs
    obtain ⟨i, hget, hmatch, hbef, happ⟩ := applySetFirst_of_some oid kvs col d hd
    have hidnot : "_id" ∉ kvs.map Prod.fst := by
      rw [hkvs, trek_set_keys]
      decide
    have hfid' : Doc.find (Doc.setMany d kvs) "_id" = some (Value.vOid oid) := by
      rw [Doc.find_setMany_not_mem kvs d _ hidnot]
      exact hmatch
    have hfind' : findOne (col.set i (Doc.setMany d kvs)) oid = some (Doc.setMany d kvs) :=
      findOne_set_of_mem col i d (Doc.setMany d kvs) oid hget hbef hfid'
    have hne : ¬ (Doc.setMany d kvs).isEmpty = true :=
      nonEmpty_of_find _ _ _ hfid'
    have hnodup : (kvs.map Prod.fst).Nodup := by
      rw [hkvs, trek_set_keys]
      decide
    have hupd : update_trek ek hdr col idStr p2 now
        = .ok (col.set i (Doc.setMany d kvs), serialize_doc (Doc.setMany d kvs)) := by
      simp only [update_trek, hauth, hid, ← hkvs, happ]
      simp [hfind']
    refine ⟨col.set i (Doc.setMany d kvs), serialize_doc (Doc.setMany d kvs), hupd, ?_, ?_, ?_, ?_⟩
    · simp only [get_trek, hid, hfind']
      simp [hne]
    · intro kv hkv
      have hkmem : kv.1 ∈ trekFieldNames := by
        rw [← trek_dump_keys p2]
        exact List.mem_map_of_mem Prod.fst hkv
      have hkid : kv.1 ≠ "id" := by
        intro h
        rw [h] at hkmem
        exact absurd hkmem (by decide)
      have hkuid : kv.1 ≠ "_id" := by
        intro h
        rw [h] at hkmem
        exact absurd hkmem (by decide)
      have hmem : (kv.1, kv.2) ∈ kvs := by
        rw [hkvs]
        exact List.mem_append_left _ hkv
      rw [find_serialize_of_find (Doc.setMany d kvs) kv.1 hne hkid hkuid _ hfid',
        Doc.find_setMany_mem kvs d kv.1 kv.2 hnodup hmem]
      show some (convertValue kv.2) = some kv.2
      rw [trek_dump_convertValue p2 kv hkv]
    · have hmem : ("updated_at", Value.vDateTime now) ∈ kvs := by
        rw [hkvs]
        exact List.mem_append_right _ (List.mem_singleton.mpr rfl)
      rw [find_serialize_of_find (Doc.setMany d kvs) "updated_at" hne (by decide) (by decide)
          _ hfid',
        Doc.find_setMany_mem kvs d _ _ hnodup hmem]
      rfl
    · rw [find_serialize_id (Doc.setMany d kvs) hne _ hfid']
      rfl
  · intro hnone
    simp [update_trek, hauth, hid, applySetFirst_of_none _ _ _ hnone]

/-- The stored trek document used by the update witnesses: it carries an
extra field `"extra"` outside the Trek schema. -/
def witnessStoredTrek : Doc :=
  [("_id", Value.vOid 3), ("title", Value.vStr "Old"), ("extra", Value.vStr "keep")]

/-- C2 witness: updating the stored document with `witnessTrek` under an open
gate, then reading it back. -/
theorem trek_update_then_get_witness :
    ∃ col' res, update_trek none none [witnessStoredTrek] (oidHex 3) witnessTrek 9
        = .ok (col', res) ∧
      get_trek col' (oidHex 3) = .ok res ∧
      (∀ kv ∈ witnessTrek.model_dump, Doc.find res kv.1 = some kv.2) ∧
      Doc.find res "updated_at" = some (.vStr (isoOfDateTime 9)) ∧
      Doc.find res "id" = some (.vStr (oidHex 3)) :=
  (trek_update_then_get none none [witnessStoredTrek] (oidHex 3) 3 witnessTrek 9 rfl
    (to_object_id_oidHex 3 (by norm_num)) (by decide)).1 witnessStoredTrek rfl

theorem blog_dump_convertValue (p : BlogPost) :
    ∀ kv ∈ p.model_dump, convertValue kv.2 = kv.2 := by
  intro kv hkv
  simp only [BlogPost.model_dump, List.mem_cons, List.not_mem_nil, or_false] at hkv
  rcases hkv with h|h|h|h|h|h|h|h <;> subst h <;>
    first
      | rfl
      | apply convertValue_optStr
      | apply convertValue_optDate

/-- C10: a successful Trek or BlogPost update applies a field-wise `$set` of
the schema fields plus `updated_at` to the single matched document only: the
document's `_id` is unchanged, stored fields outside the schema (and other
than `updated_at`) keep their values, and every other document of the
collection is untouched. -/
theorem update_sets_fields_frame :
    (∀ ek hdr col s p now col' res,
      update_trek ek hdr col s p now = .ok (col', res) →
      ∃ oid i d, to_object_id s = .ok oid ∧ col.get? i = some d ∧
        Doc.find d "_id" = some (Value.vOid oid) ∧
        col' = col.set i (Doc.setMany d (p.model_dump ++ [("updated_at", Value.vDateTime now)])) ∧
        Doc.find (Doc.setMany d (p.model_dump ++ [("updated_at", Value.vDateTime now)])) "_id"
          = Doc.find d "_id" ∧
        (∀ k, k ∉ trekFieldNames → k ≠ "updated_at" →
          Doc.find (Doc.setMany d (p.model_dump ++ [("updated_at", Value.vDateTime now)])) k
            = Doc.find d k) ∧
        (∀ j, j ≠ i → col'.get? j = col.get? j)) ∧
    (∀ ek hdr col s p now col' res,
      update_blog_post ek hdr col s p now = .ok (col', res) →
      ∃ oid i d, to_object_id s = .ok oid ∧ col.get? i = some d ∧
        Doc.find d "_id" = some (Value.vOid oid) ∧
        col' = col.set i (Doc.setMany d (p.model_dump ++ [("updated_at", Value.vDateTime now)])) ∧
        Doc.find (Doc.setMany d (p.model_dump ++ [("updated_at", Value.vDateTime now)])) "_id"
          = Doc.find d "_id" ∧
        (∀ k, k ∉ blogFieldNames → k ≠ "updated_at" →
          Doc.find (Doc.setMany d (p.model_dump ++ [("updated_at", Value.vDateTime now)])) k
            = Doc.find d k) ∧
        (∀ j, j ≠ i → col'.get? j = col.get? j)) := by
  constructor
  · intro ek hdr col s p now col' res h
    cases hra : require_admin ek hdr with
    | error e =>
      rw [update_trek] at h
      simp only [hra] at h
      exact absurd h (by simp)
    | ok b =>
      cases hto : to_object_id s with
      | error e =>
        rw [update_trek] at h
        simp only [hra, hto] at h
        exact absurd h (by simp)
      | ok oid =>
        rw [update_trek] at h
        simp only [hra, hto] at h
        set kvs := p.model_dump ++ [("updated_at", Value.vDateTime now)] with hkvs
        by_cases hz : (applySetFirst oid kvs col).2 = 0
        · rw [if_pos hz] at h
          exact absurd h (by simp)
        · rw [if_neg hz] at h
          obtain ⟨i, d, hget, hidm, hcol', hfid, hframe, hothers, hfindone⟩ :=
            updateCore_frame col oid kvs (by rw [hkvs, trek_set_keys]; decide)
              (applySetFirst oid kvs col).1 (applySetFirst oid kvs col).2 rfl hz
          simp only [hfindone] at h
          injection h with hpair
          injection hpair with hc hr
          refine ⟨oid, i, d, rfl, hget, hidm, ?_, hfid, ?_, ?_⟩
          · rw [← hc, hcol']
          · intro k hk1 hk2
            apply hframe
            rw [hkvs, trek_set_keys]
            simp [hk1, hk2]
          · intro j hj
            rw [← hc]
            exact hothers j hj
  · intro ek hdr col s p now col' res h
    cases hra : require_admin ek hdr with
    | error e =>
      rw [update_blog_post] at h
      simp only [hra] at h
      exact absurd h (by simp)
    | ok b =>
      cases hto : to_object_id s with
      | error e =>
        rw [update_blog_post] at h
        simp only [hra, hto] at h
        exact absurd h (by simp)
      | ok oid =>
        rw [update_blog_post] at h
        simp only [hra, hto] at h
        set kvs := p.model_dump ++ [("updated_at", Value.vDateTime now)] with hkvs
        by_cases hz : (applySetFirst oid kvs col).2 = 0
        · rw [if_pos hz] at h
          exact absurd h (by simp)
        · rw [if_neg hz] at h
          obtain ⟨i, d, hget, hidm, hcol', hfid, hframe, hothers, hfindone⟩ :=
            updateCore_frame col oid kvs (by rw [hkvs, blog_set_keys]; decide)
              (applySetFirst oid kvs col).1 (applySetFirst oid kvs col).2 rfl hz
          simp only [hfindone] at h
          injection h with hpair
          injection hpair with hc hr
          refine ⟨oid, i, d, rfl, hget, hidm, ?_, hfid, ?_, ?_⟩
          · rw [← hc, hcol']
          · intro k hk1 hk2
            apply hframe
            rw [hkvs, blog_set_keys]
            simp [hk1, hk2]
          · intro j hj
            rw [← hc]
            exact hothers j hj

/-- The collection and response produced by the witness update. -/
def wUpdatedTrekDoc : Doc :=
  Doc.setMany witnessStoredTrek (witnessTrek.model_dump ++ [("updated_at", Value.vDateTime 9)])

/-- C10 witness: the frame theorem applied to a concrete successful update of
`witnessStoredTrek`, whose `"extra"` field survives. -/
theorem update_sets_fields_frame_witness :
    update_trek none none [witnessStoredTrek] (oidHex 3) witnessTrek 9
      = .ok ([wUpdatedTrekDoc], serialize_doc wUpdatedTrekDoc) ∧
    (∃ oid i d, to_object_id (oidHex 3) = .ok oid ∧
      [witnessStoredTrek].get? i = some d ∧
      Doc.find d "_id" = some (Value.vOid oid) ∧
      [wUpdatedTrekDoc]
        = [witnessStoredTrek].set i
            (Doc.setMany d (witnessTrek.model_dump ++ [("updated_at", Value.vDateTime 9)])) ∧
      Doc.find (Doc.setMany d (witnessTrek.model_dump ++ [("updated_at", Value.vDateTime 9)])) "_id"
        = Doc.find d "_id" ∧
      (∀ k, k ∉ trekFieldNames → k ≠ "updated_at" →
        Doc.find (Doc.setMany d (witnessTrek.model_dump ++ [("updated_at", Value.vDateTime 9)])) k
          = Doc.find d k) ∧
      (∀ j, j ≠ i → [wUpdatedTrekDoc].get? j = [witnessStoredTrek].get? j)) :=
  ⟨rfl,
   update_sets_fields_frame.1 none none [witnessStoredTrek] (oidHex 3) witnessTrek 9
     [wUpdatedTrekDoc] (serialize_doc wUpdatedTrekDoc) rfl⟩

/-- The SMTP environment with host, port, user and password configured but no
sender address (`SMTP_FROM` absent). -/
def envNoFrom : SmtpEnv :=
  ⟨some "smtp.example.com", some "465", some "mailer@example.com", some "hunter2",
   none, none⟩

/-- C6 counterexample: with the sender address absent but host, port, user
and password configured, `try_send_email` is *not* a deterministic no-op
returning failure — the guard only checks host, port, user and password, the
sender address silently defaults to the username, a transport attempt is
made, and on transport success the call returns `true`. -/
theorem smtp_sender_absent_cex :
    envNoFrom.smtp_from = none ∧
    try_send_email envNoFrom "Subject" "to@example.com" true
      = .ok (true, some ⟨"mailer@example.com", "to@example.com", "Subject"⟩) :=
  ⟨rfl, rfl⟩

/-- C6 (amended): if any of the host, port, username or password SMTP values
is absent (the sender address is *not* required — it defaults to the username
or a placeholder), every email send is a deterministic no-op returning
`false` with no transport attempt; any transport exception during a send is
caught and becomes a `false` return; and submitting a valid Inquiry with no
SMTP configuration at all still succeeds with a message noting that
notifications were skipped, returns the new inquiry id, and persists the
inquiry. -/
theorem smtp_noop_and_inquiry_flow :
    (∀ env subject to_email ok port, smtpPortVal env = some port →
      (env.smtp_host = none ∨ env.smtp_user = none ∨ env.smtp_pass = none ∨ port = 0) →
      try_send_email env subject to_email ok = .ok (false, none)) ∧
    (∀ env subject to_email port, smtpPortVal env = some port →
      ∃ m, try_send_email env subject to_email false = .ok (false, m)) ∧
    (∀ notify col p nid o1 o2,
      create_inquiry ⟨none, none, none, none, none, notify⟩ col p nid o1 o2
        = .ok (col ++ [("_id", Value.vOid nid) :: p.model_dump],
            ⟨"Inquiry submitted successfully. Email notifications skipped.",
             some (oidHex nid)⟩)) := by
  refine ⟨?_, ?_, ?_⟩
  · intro env subject to_email ok port hport habs
    rw [try_send_email]
    simp only [hport]
    have hguard : (pyTruthyOptStr env.smtp_host && !(port == 0) &&
        pyTruthyOptStr env.smtp_user && pyTruthyOptStr env.smtp_pass) = false := by
      rcases habs with h | h | h | h
      · simp [h, pyTruthyOptStr]
      · simp [h, pyTruthyOptStr]
      · simp [h, pyTruthyOptStr]
      · simp [h]
    rw [hguard]
    rfl
  · intro env subject to_email port hport
    rw [try_send_email]
    simp only [hport]
    by_cases hguard : (pyTruthyOptStr env.smtp_host && !(port == 0) &&
        pyTruthyOptStr env.smtp_user && pyTruthyOptStr env.smtp_pass) = true
    · rw [hguard]
      exact ⟨_, rfl⟩
    · rw [Bool.not_eq_true] at hguard
      rw [hguard]
      exact ⟨none, rfl⟩
  · intro notify col p nid o1 o2
    have hsend : ∀ subject to_email ok,
        try_send_email ⟨none, none, none, none, none, notify⟩ subject to_email ok
          = .ok (false, none) := by
      intro subject to_email ok
      rfl
    rw [create_inquiry]
    by_cases hn : pyTruthyOptStr notify = true
    · simp only [hn, if_true, hsend]
      rfl
    · rw [Bool.not_eq_true] at hn
      simp only [hn, if_false, hsend]
      rfl

/-- C6 witness: the no-op clause at a concrete environment missing its host,
the exception-swallowing clause at `envNoFrom`, and the full inquiry flow
with an empty environment. -/
theorem smtp_noop_and_inquiry_flow_witness :
    try_send_email ⟨none, some "465", some "u@example.com", some "pw", none, none⟩
        "S" "c@example.com" true = .ok (false, none) ∧
    (∃ m, try_send_email envNoFrom "S" "c@example.com" false = .ok (false, m)) ∧
    create_inquiry ⟨none, none, none, none, none, none⟩ []
        ⟨"Nomin", "n@example.com", none, none, "hello", none, some 2⟩ 11 true true
      = .ok ([] ++ [("_id", Value.vOid 11) ::
            (⟨"Nomin", "n@example.com", none, none, "hello", none, some 2⟩ : Inquiry).model_dump],
          ⟨"Inquiry submitted successfully. Email notifications skipped.",
           some (oidHex 11)⟩) :=
  ⟨smtp_noop_and_inquiry_flow.1 ⟨none, some "465", some "u@example.com", some "pw", none, none⟩
     "S" "c@example.com" true 465 rfl (Or.inl rfl),
   smtp_noop_and_inquiry_flow.2.1 envNoFrom "S" "c@example.com" 465 rfl,
   smtp_noop_and_inquiry_flow.2.2 none [] _ 11 true true⟩

/-- C4: login with an unknown email and login with a known email but wrong
password fail with the *same* 401 `"Invalid credentials"` error (no account
enumeration); on success — the stored hash equals the salted hash recomputed
from the submitted password and the stored salt — the response carries the
token (the configured admin secret when nonempty, else the fixed `"dev-admin"`
placeholder, per Python `or`), the user's email and the user's id. -/
theorem admin_login_credential_check :
    (∀ users email pw key fresh, findUserByEmail users email = none →
      admin_login users email pw key fresh = .error ⟨401, "Invalid credentials"⟩) ∧
    (∀ users email pw key fresh u salt, findUserByEmail users email = some u →
      Doc.find u "password_salt" = some (.vStr salt) →
      Doc.find u "password_hash" ≠ some (.vStr ((hash_password pw (some salt) fresh).1)) →
      admin_login users email pw key fresh = .error ⟨401, "Invalid credentials"⟩) ∧
    (∀ users email pw key fresh u salt, findUserByEmail users email = some u →
      Doc.find u "password_salt" = some (.vStr salt) →
      Doc.find u "password_hash" = some (.vStr ((hash_password pw (some salt) fresh).1)) →
      admin_login users email pw key fresh
        = .ok ⟨pyOrStr key "dev-admin", some (.vStr email), pyStrOpt (Doc.find u "_id")⟩) ∧
    (∀ k dflt, k ≠ "" → pyOrStr (some k) dflt = k) ∧
    (∀ dflt, pyOrStr none dflt = dflt) := by
  refine ⟨?_, ?_, ?_, ?_, ?_⟩
  · intro users email pw key fresh hfind
    rw [admin_login]
    simp only [hfind]
  · intro users email pw key fresh u salt hfind hsalt hne
    rw [admin_login]
    simp only [hfind, hsalt]
    rw [adminLoginCheck]
    have hb : (Doc.find u "password_hash"
        == some (Value.vStr ((hash_password pw (some salt) fresh).1))) = false := by
      simpa using hne
    simp only [hb, Bool.false_eq_true, if_false]
  · intro users email pw key fresh u salt hfind hsalt hhash
    have hemail : Doc.find u "email" = some (Value.vStr email) := by
      have := List.find?_some hfind
      simpa using this
    rw [admin_login]
    simp only [hfind, hsalt]
    rw [adminLoginCheck]
    have hb : (Doc.find u "password_hash"
        == some (Value.vStr ((hash_password pw (some salt) fresh).1))) = true := by
      simpa using hhash
    simp only [hb, if_true, hemail]
  · intro k dflt hk
    simp [pyOrStr, hk]
  · intro dflt
    rfl

/-- An admin-user document whose stored hash is not even a string. -/
def wUserBadHash : Doc :=
  [("email", Value.vStr "admin@example.com"), ("password_salt", Value.vStr "s1"),
   ("password_hash", Value.vInt 0), ("_id", Value.vOid 8)]

/-- An admin-user document whose stored hash matches password `"pw"` under
salt `"s1"`. -/
def wUserGoodHash : Doc :=
  [("email", Value.vStr "admin@example.com"), ("password_salt", Value.vStr "s1"),
   ("password_hash", Value.vStr ((hash_password "pw" (some "s1") "fr").1)),
   ("_id", Value.vOid 8)]

/-- C4 witness: unknown email, known email with mismatching stored hash, and
a successful login with a configured admin key. -/
theorem admin_login_credential_check_witness :
    admin_login [] "admin@example.com" "pw" none "fr"
      = .error ⟨401, "Invalid credentials"⟩ ∧
    admin_login [wUserBadHash] "admin@example.com" "pw" none "fr"
      = .error ⟨401, "Invalid credentials"⟩ ∧
    admin_login [wUserGoodHash] "admin@example.com" "pw" (some "tok") "fr"
      = .ok ⟨"tok", some (.vStr "admin@example.com"), oidHex 8⟩ :=
  ⟨admin_login_credential_check.1 [] "admin@example.com" "pw" none "fr" rfl,
   admin_login_credential_check.2.1 [wUserBadHash] "admin@example.com" "pw" none "fr"
     wUserBadHash "s1" rfl rfl
     (fun h => by exact absurd (Option.some.inj h) (by simp [Doc.find, wUserBadHash] at h ⊢)),
   admin_login_credential_check.2.2.1 [wUserGoodHash] "admin@example.com" "pw" (some "tok") "fr"
     wUserGoodHash "s1" rfl rfl rfl⟩

/-- C7: an authorized admin-user creation with plaintext password `pw` stores
`password_hash` equal to the lowercase-hex encoding of PBKDF2-HMAC-SHA256
over `pw` with 100,000 iterations and the freshly generated salt
`secrets.token_hex(16)` (the hex encoding of 16 fresh random bytes — a
32-character lowercase-hex string stored verbatim in `password_salt`); the
stored hash is a 64-character lowercase-hex string, hence never equal to any
plaintext whose length is not 64 (equality at length 64 would require a
PBKDF2 fixed point). -/
theorem admin_user_password_kdf (ek hdr : Option String) (col : List Doc)
    (email pw : String) (full_name : Option String) (saltBytes : List Nat)
    (nid : Nat) (hauth : require_admin ek hdr = .ok true)
    (hsb : saltBytes.length = 16) :
    ∃ stored : Doc,
      create_admin_user ek hdr col email pw full_name (hexEncode saltBytes) nid
        = .ok (col ++ [stored], oidHex nid) ∧
      Doc.find stored "password_hash" = some (.vStr (hexEncode
        (pbkdf2HmacSha256 (strBytes pw) (strBytes (hexEncode saltBytes)) 100000))) ∧
      Doc.find stored "password_salt" = some (.vStr (hexEncode saltBytes)) ∧
      (hexEncode saltBytes).length = 32 ∧
      (hexEncode saltBytes).data.all isLowerHexChar = true ∧
      (∀ hashStr, Doc.find stored "password_hash" = some (.vStr hashStr) →
        hashStr.length = 64 ∧
        hashStr.data.all isLowerHexChar = true ∧
        (pw.length ≠ 64 → hashStr ≠ pw)) := by
  refine ⟨("_id", Value.vOid nid) ::
    AdminUser.model_dump ⟨email,
      (hash_password pw none (hexEncode saltBytes)).1,
      (hash_password pw none (hexEncode saltBytes)).2, full_name, "admin"⟩,
    ?_, ?_, ?_, ?_, ?_, ?_⟩
  · rw [create_admin_user, hauth]
    rfl
  · rfl
  · rfl
  · rw [hexEncode_length, hsb]
  · exact hexEncode_chars saltBytes
  · intro hashStr hfind
    have h2 : hashStr = hexEncode (pbkdf2HmacSha256 (strBytes pw)
        (strBytes (hexEncode saltBytes)) 100000) := by
      have h3 : Doc.find (("_id", Value.vOid nid) ::
          AdminUser.model_dump ⟨email,
            (hash_password pw none (hexEncode saltBytes)).1,
            (hash_password pw none (hexEncode saltBytes)).2, full_name, "admin"⟩)
          "password_hash"
          = some (Value.vStr (hexEncode (pbkdf2HmacSha256 (strBytes pw)
              (strBytes (hexEncode saltBytes)) 100000))) := rfl
      rw [h3] at hfind
      exact (Value.vStr.inj (Option.some.inj hfind)).symm
    have hlen64 : hashStr.length = 64 := by
      rw [h2, hexEncode_length, pbkdf2HmacSha256_length _ _ _ (by norm_num)]
    refine ⟨hlen64, by rw [h2]; exact hexEncode_chars _, ?_⟩
    intro hlen heq
    rw [heq] at hlen64
    exact hlen hlen64

/-- C7 witness: a concrete creation with password `"correct horse"` and a
fixed 16-byte fresh salt. -/
theorem admin_user_password_kdf_witness :
    ∃ stored : Doc,
      create_admin_user none none [] "admin@example.com" "correct horse" none
          (hexEncode [0, 1, 2, 3, 4, 5, 6, 7, 8, 9, 10, 11, 12, 13, 14, 15]) 21
        = .ok ([] ++ [stored], oidHex 21) ∧
      Doc.find stored "password_hash" = some (.vStr (hexEncode
        (pbkdf2HmacSha256 (strBytes "correct horse")
          (strBytes (hexEncode [0, 1, 2, 3, 4, 5, 6, 7, 8, 9, 10, 11, 12, 13, 14, 15]))
          100000))) ∧
      Doc.find stored "password_salt"
        = some (.vStr (hexEncode [0, 1, 2, 3, 4, 5, 6, 7, 8, 9, 10, 11, 12, 13, 14, 15])) ∧
      (hexEncode [0, 1, 2, 3, 4, 5, 6, 7, 8, 9, 10, 11, 12, 13, 14, 15]).length = 32 ∧
      (hexEncode [0, 1, 2, 3, 4, 5, 6, 7, 8, 9, 10, 11, 12, 13, 14, 15]).data.all
        isLowerHexChar = true ∧
      (∀ hashStr, Doc.find stored "password_hash" = some (.vStr hashStr) →
        hashStr.length = 64 ∧
        hashStr.data.all isLowerHexChar = true ∧
        ((String.length "correct horse") ≠ 64 → hashStr ≠ "correct horse")) :=
  admin_user_password_kdf none none [] "admin@example.com" "correct horse" none
    [0, 1, 2, 3, 4, 5, 6, 7, 8, 9, 10, 11, 12, 13, 14, 15] 21 rfl rfl
